import Mathlib

/-!
# GSPReporter: configuration store, SMS command dispatcher and task scheduler

A shallow embedding of `src/main.cpp` (and of `GPSLib::loop` from
`src/GPSLib.cpp`).

Target and layout.  The sketch uses `EEPROM.update` and `AltSoftSerial`, which
exist on the 8-bit AVR boards only.  There `struct Config` has no padding:
`owner` occupies the offsets 0..15, `mmsi` 16..31, `shipname` 32..51,
`callsign` 52..61 and the little-endian `uint32_t checksum` 62..65, so
`sizeof(config)` is 66; `unsigned int` has 16 bits and `unsigned long`
(the type of `millis()`) has 32.

Memory is a map from offsets to bytes.  For the global `config` the offset is
relative to `&config`; C strings are read from it byte by byte up to the first
NUL, so a field without a terminator runs on into the next field exactly as on
the device.  A read stops at the end of the struct at the latest.

Collaborator calls (modem, GPS, sensor) are recorded in a trace in call order.
Debug output (`DBG_PRN`, `Serial.println`) and `delay` are not recorded.
-/

set_option maxRecDepth 100000

namespace GSPReporter

/-! ## Bytes, memory and C strings -/

/-- An `unsigned char`. -/
abbrev Byte := Fin 256

/-- Byte-addressable memory: the EEPROM cells, or the bytes of the global `config`. -/
abbrev Mem := Nat → Byte

/-- The bytes of a string literal of the sketch, without the terminator. -/
def ascii (s : String) : List Byte := s.toList.map (fun ch => Fin.ofNat ch.toNat)

/-- The contents of a NUL-terminated buffer: the bytes before the first NUL.
A list stands for the bytes at a `char *`, followed by a terminator. -/
def cstr (buf : List Byte) : List Byte := buf.takeWhile (fun b => b ≠ 0)

/-- The C library `strlen`. -/
def strlen (buf : List Byte) : Nat := (cstr buf).length

/-- The C library `strcmp`; the end of a list is the terminator. -/
def strcmp : List Byte → List Byte → Int
  | [], [] => 0
  | [], b :: _ => -(b.val : Int)
  | a :: _, [] => (a.val : Int)
  | a :: as, b :: bs =>
    if a ≠ b then (a.val : Int) - (b.val : Int)
    else if a = 0 then 0
    else strcmp as bs

/-- Offset of `owner` in `struct Config`. -/
def OWNER_OFF : Nat := 0
/-- The `sizeof(config.owner)`. -/
def OWNER_LEN : Nat := 16
/-- Offset of `mmsi` in `struct Config`. -/
def MMSI_OFF : Nat := 16
/-- The `sizeof(config.mmsi)`. -/
def MMSI_LEN : Nat := 16
/-- Offset of `shipname` in `struct Config`. -/
def SHIPNAME_OFF : Nat := 32
/-- The `sizeof(config.shipname)`. -/
def SHIPNAME_LEN : Nat := 20
/-- Offset of `callsign` in `struct Config`. -/
def CALLSIGN_OFF : Nat := 52
/-- The `sizeof(config.callsign)`. -/
def CALLSIGN_LEN : Nat := 10
/-- Offset of `checksum`: `sizeof(config) - sizeof(config.checksum)`. -/
def CHECKSUM_OFF : Nat := 62
/-- The `sizeof(config)`. -/
def CONFIG_SIZE : Nat := 66

/-- Range of `unsigned int`, the type of the running `sum` (16 bits on AVR). -/
def UINT_MOD : Nat := 65536

/-- The `n` bytes of memory starting at `off`. -/
def bytesAt (m : Mem) (off n : Nat) : List Byte := (List.range n).map (fun k => m (off + k))

/-- The buffer seen through a pointer to offset `off` of `config`: the bytes up
to the end of the struct. -/
def memFrom (c : Mem) (off : Nat) : List Byte := bytesAt c off (CONFIG_SIZE - off)

/-- The C library `strcpy(dst, src)` into memory at offset `dst`: the bytes of
`src` and the terminator. -/
def strcpy (c : Mem) (dst : Nat) (src : List Byte) : Mem :=
  fun i => if dst ≤ i ∧ i - dst ≤ strlen src then (cstr src).getD (i - dst) 0 else c i

/-- The C library `strncpy(dst, src, n)`: exactly `n` bytes are written, the
bytes of `src` and then NUL padding; no terminator when `src` has `n` bytes or more. -/
def strncpy (c : Mem) (dst : Nat) (src : List Byte) (n : Nat) : Mem :=
  fun i => if dst ≤ i ∧ i - dst < n then (cstr src).getD (i - dst) 0 else c i

/-- The C library `memset(dst, '\0', n)`. -/
def memset0 (c : Mem) (dst n : Nat) : Mem :=
  fun i => if dst ≤ i ∧ i - dst < n then 0 else c i

/-- The value of `config.checksum`: four bytes, little-endian. -/
def getChecksum (c : Mem) : Nat :=
  (c CHECKSUM_OFF).val + 256 * (c (CHECKSUM_OFF + 1)).val
    + 65536 * (c (CHECKSUM_OFF + 2)).val + 16777216 * (c (CHECKSUM_OFF + 3)).val

/-- The assignment `config.checksum = v`. -/
def setChecksum (c : Mem) (v : Nat) : Mem :=
  fun i =>
    if i = CHECKSUM_OFF then Fin.ofNat v
    else if i = CHECKSUM_OFF + 1 then Fin.ofNat (v / 256)
    else if i = CHECKSUM_OFF + 2 then Fin.ofNat (v / 65536)
    else if i = CHECKSUM_OFF + 3 then Fin.ofNat (v / 16777216)
    else c i

/-- The four string fields of a Config, as raw bytes. -/
def ownerOf (c : Mem) : List Byte := bytesAt c OWNER_OFF OWNER_LEN
/-- The 16 bytes of `mmsi`. -/
def mmsiOf (c : Mem) : List Byte := bytesAt c MMSI_OFF MMSI_LEN
/-- The 20 bytes of `shipname`. -/
def shipnameOf (c : Mem) : List Byte := bytesAt c SHIPNAME_OFF SHIPNAME_LEN
/-- The 10 bytes of `callsign`. -/
def callsignOf (c : Mem) : List Byte := bytesAt c CALLSIGN_OFF CALLSIGN_LEN

/-- The persisted record: the first `sizeof(config)` cells of the EEPROM. -/
def recordOf (e : Mem) : List Byte := bytesAt e 0 CONFIG_SIZE

/-! ## Configuration store -/

/-- The function `defaultConfig()`: the four string fields are zeroed, the
checksum is left as it is. -/
def defaultConfig (c : Mem) : Mem :=
  let c := memset0 c CALLSIGN_OFF 10
  let c := memset0 c MMSI_OFF 16
  let c := memset0 c OWNER_OFF 16
  memset0 c SHIPNAME_OFF 20

/-- One iteration of the loop of `loadConfig()`, on the pair (config, sum). -/
def loadStep (e : Mem) (st : Mem × Nat) (i : Nat) : Mem × Nat :=
  let t := e i
  let c := Function.update st.1 i t
  if i < CONFIG_SIZE - 4 then (c, (st.2 + t.val) % UINT_MOD) else (c, st.2)

/-- The loop of `loadConfig()` after `config.checksum = 0; sum = 0`. -/
def loadLoop (e c : Mem) : Mem × Nat :=
  (List.range CONFIG_SIZE).foldl (loadStep e) (setChecksum c 0, 0)

/-- The test `config.checksum != sum` of `loadConfig()`. -/
def loadMismatch (e c : Mem) : Bool :=
  decide (getChecksum (loadLoop e c).1 ≠ (loadLoop e c).2)

/-- The function `loadConfig()`: the new contents of `config`. -/
def loadConfig (e c : Mem) : Mem :=
  if loadMismatch e c then defaultConfig (loadLoop e c).1 else (loadLoop e c).1

/-- The call `EEPROM.update(i, t)`: afterwards cell `i` holds `t` (the library
skips the write when the cell already does; wear is not modelled). -/
def eepromUpdate (e : Mem) (i : Nat) (t : Byte) : Mem :=
  Function.update e i t

/-- Loop state of `saveConfig()`. -/
structure SaveState where
  /-- The global `config`. -/
  config : Mem
  /-- The running `sum`. -/
  sum : Nat
  /-- The EEPROM. -/
  eeprom : Mem

/-- One iteration of the loop of `saveConfig()`. -/
def saveStep (st : SaveState) (i : Nat) : SaveState :=
  let c := if i = CONFIG_SIZE - 4 then setChecksum st.config st.sum else st.config
  let t := c i
  let sum := if i < CONFIG_SIZE - 4 then (st.sum + t.val) % UINT_MOD else st.sum
  { config := c, sum := sum, eeprom := eepromUpdate st.eeprom i t }

/-- The function `saveConfig()`: the final loop state, from `config` and the EEPROM. -/
def saveConfig (c e : Mem) : SaveState :=
  (List.range CONFIG_SIZE).foldl saveStep { config := c, sum := 0, eeprom := e }

/-! ## Device state and collaborators -/

/-- A numeric reading (temperature, latitude, ...).  The sketch only stores and
forwards these values, and compares coordinates with zero. -/
abbrev Scalar := Int

/-- The part of the `gps_fix` of the GPS library that the sketch reads. -/
structure GpsFix where
  /-- The flag `valid.location`. -/
  validLocation : Bool
  /-- The value of `latitude()`. -/
  latitude : Scalar
  /-- The value of `longitude()`. -/
  longitude : Scalar
  /-- The value of `heading()`. -/
  heading : Scalar
  /-- The value of `speed()`. -/
  speed : Scalar
  deriving DecidableEq

/-- The result code of `httpPostJson`. -/
inductive Result
  | SUCCESS
  | ERROR (code : Nat)
  deriving DecidableEq

/-- A value stored in the JSON document. -/
inductive JVal
  | str (s : List Byte)
  | num (v : Scalar)
  deriving DecidableEq

/-- The JSON document: members in insertion order. -/
abbrev JsonDoc := List (String × JVal)

/-- The statement `doc[key].set(v)`: the member is replaced, or added at the end. -/
def JsonDoc.set (d : JsonDoc) (key : String) (v : JVal) : JsonDoc :=
  if d.any (fun p => p.1 = key) then d.map (fun p => if p.1 = key then (key, v) else p)
  else d ++ [(key, v)]

/-- A call to a collaborator. -/
inductive Event
  | gpsLoop
  | signalQuality
  | readTemperature
  | readHumidity
  | computeHeatIndex
  | smsRead
  | connectBearer (apn : List Byte)
  | httpPostJson (url : List Byte) (body : JsonDoc) (contentType : List Byte)
  | gprsCloseConn
  | resetGsm
  | resetAll
  deriving DecidableEq

/-- The global state of the sketch, the EEPROM and the trace of collaborator calls. -/
structure Device where
  /-- The EEPROM cells. -/
  eeprom : Mem
  /-- The bytes of the global `config`. -/
  config : Mem
  /-- The buffer `imei`. -/
  imei : List Byte
  /-- The flag `resetAll`. -/
  resetAll : Bool
  /-- The global `lastMillis` (telemetry upload). -/
  lastMillis : Nat
  /-- The global `sensLastMillis`. -/
  sensLastMillis : Nat
  /-- The global `smsLastMillis`. -/
  smsLastMillis : Nat
  /-- The global `gpsLastMillis`. -/
  gpsLastMillis : Nat
  /-- The global `qos`. -/
  qos : Nat
  /-- The global `temp`. -/
  temp : Scalar
  /-- The global `humi`. -/
  humi : Scalar
  /-- The global `hidx`. -/
  hidx : Scalar
  /-- The member `gpsLib.fix`. -/
  fix : GpsFix
  /-- The global `jsonDoc`. -/
  jsonDoc : JsonDoc
  /-- Set once a full reset has restarted the device: the sketch executes nothing more. -/
  halted : Bool
  /-- The collaborator calls made so far, oldest first. -/
  trace : List Event

/-- What the collaborators deliver during one call of `loop()`. -/
structure Env where
  /-- The value of the k-th call of `millis()` in this iteration (k = 0, 1, ...). -/
  millis : Nat → Nat
  /-- Whether `_gps->available(gpsPort)` holds. -/
  gpsAvailable : Bool
  /-- The fix returned by `_gps->read()`. -/
  gpsRead : GpsFix
  /-- The value of `gprs.signalQuality()`. -/
  signalQuality : Nat
  /-- The value of `dht.readTemperature()`. -/
  temperature : Scalar
  /-- The value of `dht.readHumidity()`. -/
  humidity : Scalar
  /-- The value of `dht.computeHeatIndex(temp, humi, false)`. -/
  heatIndex : Scalar
  /-- The command found by `gprs.smsRead()`, if any: sender, name, value. -/
  sms : Option (List Byte × List Byte × List Byte)
  /-- The result of `gprs.connectBearer`. -/
  connectResult : Bool
  /-- The result of `gprs.httpPostJson`. -/
  postResult : Result
  /-- The result of `gprs.gprsCloseConn`. -/
  closeResult : Bool
  /-- Whether `gprs.resetAll()` hands control back to the sketch; when it does
  not, the device restarts inside the call. -/
  resetAllReturns : Bool

/-- The constant `postUrl`, as a C string. -/
def postUrl : List Byte := ascii "https://bogenhuset.no/nodered/ais/blackpearl"
/-- The constant `postContentType`, as a C string. -/
def postContentType : List Byte := ascii "application/json"

/-- The global `interval` (telemetry upload). -/
def interval : Nat := 15000
/-- The global `sensInterval`. -/
def sensInterval : Nat := 5000
/-- The global `smsInterval`. -/
def smsInterval : Nat := 30000
/-- The global `gpsInterval`. -/
def gpsInterval : Nat := 50

/-- Range of `uint64_t`, the type of the timestamps and intervals. -/
def U64_MOD : Nat := 2 ^ 64

/-- The k-th `millis()` of an iteration: an `unsigned long` of 32 bits. -/
def millisAt (env : Env) (k : Nat) : Nat := env.millis k % 2 ^ 32

/-- Append a collaborator call to the trace. -/
def Device.log (s : Device) (ev : Event) : Device := { s with trace := s.trace ++ [ev] }

/-- The call `gprs.resetGsm()`: a soft modem reset is requested. -/
def GPRSLib.resetGsm (s : Device) : Device := s.log Event.resetGsm

/-- The call `gprs.resetAll()`: a full reset is requested.  The body of the
call is not part of the sources; `returns` says whether control comes back. -/
def GPRSLib.resetAll (returns : Bool) (s : Device) : Device :=
  { s.log Event.resetAll with halted := s.halted || !returns }

/-- The call `loadConfig()` on the device. -/
def Device.load (s : Device) : Device := { s with config := loadConfig s.eeprom s.config }

/-- The call `saveConfig()` on the device. -/
def Device.save (s : Device) : Device :=
  { s with config := (saveConfig s.config s.eeprom).config,
           eeprom := (saveConfig s.config s.eeprom).eeprom }

/-! ## SMS command dispatcher -/

/-- The second part of `smsReceived` (from the owner check to the end). -/
def smsDispatch (resetReturns : Bool) (tel cmd val : List Byte) (s : Device) : Device :=
  if strcmp (memFrom s.config OWNER_OFF) tel ≠ 0 then s
  else
    let s1 :=
      if strcmp cmd (ascii "resetgsm") = 0 then GPRSLib.resetGsm s
      else if strcmp cmd (ascii "reset") = 0 then GPRSLib.resetAll resetReturns s
      else if strcmp cmd (ascii "mmsi") = 0 then
        { s with config := strncpy s.config MMSI_OFF val MMSI_LEN }
      else if strcmp cmd (ascii "callsign") = 0 then
        { s with config := strncpy s.config CALLSIGN_OFF val CALLSIGN_LEN }
      else if strcmp cmd (ascii "shipname") = 0 then
        { s with config := strncpy s.config SHIPNAME_OFF val SHIPNAME_LEN }
      else s
    if s1.halted then s1 else s1.save

/-- The first statements of `smsReceived`: the Config is reloaded, and an empty
owner adopts the sender. -/
def smsPrologue (tel : List Byte) (s : Device) : Device :=
  let s := s.load
  if strlen (memFrom s.config OWNER_OFF) < 1 then
    { s with config := strcpy s.config OWNER_OFF tel }
  else s

/-- The callback `smsReceived(tel, cmd, val)`. -/
def smsReceived (resetReturns : Bool) (tel cmd val : List Byte) (s : Device) : Device :=
  let s := smsPrologue tel s
  if strcmp cmd (ascii "resetall") = 0 then
    if strcmp s.imei val ≠ 0 then s
    else
      let s := { s with config := defaultConfig s.config }
      let s := { s with config := strcpy s.config OWNER_OFF tel }
      let s := s.save
      let s := { s with resetAll := true }
      smsDispatch resetReturns tel cmd val s
  else smsDispatch resetReturns tel cmd val s

/-! ## Telemetry upload -/

/-- The function `sendJsonData(data)`: connect, post, close.  The results of
connect and close are discarded; the result of the post only selects a debug
message, which is not traced. -/
def sendJsonData (env : Env) (data : JsonDoc) (s : Device) : Device :=
  let s := s.log (Event.connectBearer (ascii "telenor"))
  let s := s.log (Event.httpPostJson postUrl data postContentType)
  let s := if env.postResult ≠ Result.SUCCESS then s else s
  s.log Event.gprsCloseConn

/-- The statements of `loop()` that fill `jsonDoc`; `upt` is the `millis()` read there. -/
def buildJson (s : Device) (upt : Nat) : JsonDoc :=
  let d := s.jsonDoc
  let d := d.set "mmsi" (JVal.str (cstr (memFrom s.config MMSI_OFF)))
  let d := d.set "cs" (JVal.str (cstr (memFrom s.config CALLSIGN_OFF)))
  let d := d.set "sn" (JVal.str (cstr (memFrom s.config SHIPNAME_OFF)))
  let d := d.set "tmp" (JVal.num s.temp)
  let d := d.set "hum" (JVal.num s.humi)
  let d := d.set "hix" (JVal.num s.hidx)
  let d := d.set "lat" (JVal.num s.fix.latitude)
  let d := d.set "lon" (JVal.num s.fix.longitude)
  let d := d.set "hdg" (JVal.num s.fix.heading)
  let d := d.set "sog" (JVal.num s.fix.speed)
  let d := d.set "qos" (JVal.num (s.qos : Int))
  d.set "upt" (JVal.num (upt : Int))

/-! ## Scheduler -/

/-- The method `GPSLib::loop()` with debugging off. -/
def GPSLib.loop (env : Env) (s : Device) : Device :=
  let s := s.log Event.gpsLoop
  if env.gpsAvailable then
    let f := env.gpsRead
    if f.validLocation && f.latitude != 0 && f.longitude != 0 then { s with fix := f } else s
  else s

/-- Modelled from the spec: `gprs.smsRead()`, whose body is not part of the
sources.  It polls the modem and hands a received command to the callback
registered with `setSmsCallback`, which is `smsReceived`. -/
def GPRSLib.smsRead (env : Env) (s : Device) : Device :=
  let s := s.log Event.smsRead
  match env.sms with
  | none => s
  | some (tel, cmd, val) => smsReceived env.resetAllReturns tel cmd val s

/-- The GPS branch of `loop()`. -/
def gpsTask (env : Env) (s : Device) : Device :=
  let s := GPSLib.loop env s
  { s with gpsLastMillis := millisAt env 1 }

/-- The sensor and signal branch of `loop()`. -/
def sensTask (env : Env) (s : Device) : Device :=
  let s := s.log Event.signalQuality
  let s := { s with qos := env.signalQuality % 256 }
  let s := s.log Event.readTemperature
  let s := { s with temp := env.temperature }
  let s := s.log Event.readHumidity
  let s := { s with humi := env.humidity }
  let s := s.log Event.computeHeatIndex
  let s := { s with hidx := env.heatIndex }
  { s with sensLastMillis := millisAt env 2 }

/-- The SMS branch of `loop()`. -/
def smsTask (env : Env) (s : Device) : Device :=
  let s := GPRSLib.smsRead env s
  if s.halted then s else { s with smsLastMillis := millisAt env 3 }

/-- The telemetry branch of `loop()`. -/
def uploadTask (env : Env) (s : Device) : Device :=
  let s := s.load
  let s := { s with jsonDoc := buildJson s (millisAt env 4) }
  let s := sendJsonData env s.jsonDoc s
  let s := { s with jsonDoc := [] }
  { s with lastMillis := millisAt env 5 }

/-- The chain of conditionals of `loop()`. -/
def taskChain (env : Env) (s : Device) : Device :=
  if millisAt env 0 > (s.gpsLastMillis + gpsInterval) % U64_MOD then gpsTask env s
  else if millisAt env 1 > (s.sensLastMillis + sensInterval) % U64_MOD then sensTask env s
  else if millisAt env 2 > (s.smsLastMillis + smsInterval) % U64_MOD then smsTask env s
  else if millisAt env 3 > (s.lastMillis + interval) % U64_MOD then uploadTask env s
  else s

/-- The function `loop()` (with `GSM_DEBUG` false). -/
def loop (env : Env) (s : Device) : Device :=
  if s.halted then s
  else
    let s := if s.resetAll then GPRSLib.resetAll env.resetAllReturns s else s
    if s.halted then s else taskChain env s

/-- Successive calls of `loop()`, one per element of `envs`. -/
def run : List Env → Device → Device
  | [], s => s
  | env :: envs, s => run envs (loop env s)

/-! ## Vocabulary of the specification -/

/-- The additive sum of the first `n` bytes of a memory. -/
def sumTo (m : Mem) (n : Nat) : Nat := ((bytesAt m 0 n).map (fun b => b.val)).sum

/-- The sum of all bytes of a record that precede the checksum field. -/
def dataSum (m : Mem) : Nat := sumTo m CHECKSUM_OFF

/-- A record is valid when its stored checksum equals the sum of the preceding bytes. -/
def validRecord (e : Mem) : Prop := getChecksum e = dataSum e

instance (e : Mem) : Decidable (validRecord e) := by
  unfold validRecord; infer_instance

/-- The all-empty default Config: the four string fields hold only NUL bytes. -/
def allEmpty (c : Mem) : Prop :=
  ownerOf c = List.replicate OWNER_LEN 0 ∧ mmsiOf c = List.replicate MMSI_LEN 0 ∧
  shipnameOf c = List.replicate SHIPNAME_LEN 0 ∧ callsignOf c = List.replicate CALLSIGN_LEN 0

instance (c : Mem) : Decidable (allEmpty c) := by
  unfold allEmpty; infer_instance

/-- Two Configs hold the same bytes in `owner`, `mmsi`, `shipname` and `callsign`. -/
def sameFields (c d : Mem) : Prop :=
  ownerOf c = ownerOf d ∧ mmsiOf c = mmsiOf d ∧
  shipnameOf c = shipnameOf d ∧ callsignOf c = callsignOf d

instance (c d : Mem) : Decidable (sameFields c d) := by
  unfold sameFields; infer_instance

/-- The value `v` cut to the capacity `n` of a field: its first `n` bytes,
padded with NUL bytes when it is shorter. -/
def truncTo (n : Nat) (v : List Byte) : List Byte := (cstr v ++ List.replicate n 0).take n

/-- The all-ones content of erased EEPROM cells. -/
def blankStorage : Mem := fun _ => 255

/-- The owner stored in a record, read as a C string. -/
def storedOwner (e : Mem) : List Byte := cstr (memFrom e OWNER_OFF)

/-- The sender passes the owner check against the persisted record: it equals
the stored owner, or the stored owner is empty (and the sender is adopted). -/
def authorized (e : Mem) (tel : List Byte) : Prop :=
  storedOwner e = cstr tel ∨ e OWNER_OFF = 0

instance (e : Mem) (tel : List Byte) : Decidable (authorized e tel) := by
  unfold authorized; infer_instance

/-- The globals of the sketch when `loop()` is first called, over a given
EEPROM content and IMEI: statics are zero, `qos` is 99, nothing is traced. -/
def bootDevice (e : Mem) (imei : List Byte) : Device :=
  { eeprom := e, config := fun _ => 0, imei := imei, resetAll := false,
    lastMillis := 0, sensLastMillis := 0, smsLastMillis := 0, gpsLastMillis := 0,
    qos := 99, temp := 0, humi := 0, hidx := 0,
    fix := { validLocation := false, latitude := 0, longitude := 0, heading := 0, speed := 0 },
    jsonDoc := [], halted := false, trace := [] }

/-- An example IMEI of fifteen digits. -/
def imeiA : List Byte := ascii "356938035643809"

/-- An example record: owner "+47A", mmsi "257123456", other fields empty. -/
def recordA : Mem :=
  (saveConfig
    (strncpy (strcpy (fun _ => 0) OWNER_OFF (ascii "+47A")) MMSI_OFF (ascii "257123456") MMSI_LEN)
    blankStorage).eeprom

/-- An example record with all four fields empty. -/
def recordEmpty : Mem := (saveConfig (fun _ => 0) blankStorage).eeprom

/-- The six command names that `smsReceived` recognises. -/
def knownCommands : List (List Byte) :=
  [ascii "resetall", ascii "resetgsm", ascii "reset", ascii "mmsi", ascii "callsign",
    ascii "shipname"]

/-- The four scheduled tasks, in priority order. -/
inductive Task
  | gps
  | sensor
  | sms
  | upload
  deriving DecidableEq

/-- The task a collaborator call belongs to.  The two reset requests belong to
no task: they come from the top of `loop()` or from the SMS callback. -/
def Event.task : Event → Option Task
  | Event.gpsLoop => some Task.gps
  | Event.signalQuality => some Task.sensor
  | Event.readTemperature => some Task.sensor
  | Event.readHumidity => some Task.sensor
  | Event.computeHeatIndex => some Task.sensor
  | Event.smsRead => some Task.sms
  | Event.connectBearer _ => some Task.upload
  | Event.httpPostJson _ _ _ => some Task.upload
  | Event.gprsCloseConn => some Task.upload
  | Event.resetGsm => none
  | Event.resetAll => none

/-- The collaborator calls made between state `s` and the later state `t`. -/
def newEvents (s t : Device) : List Event := t.trace.drop s.trace.length

/-- The tasks that executed between state `s` and the later state `t`. -/
def tasksRun (s t : Device) : List Task := ((newEvents s t).filterMap Event.task).dedup

/-- The eligibility test of the sketch on plain numbers: the clock value `now`
exceeds `last + ivl`.  No wrap of the clock is taken into account. -/
def due (now last ivl : Nat) : Bool := decide (now > last + ivl)

/-- The first task in priority order whose test `due` passes, each one at the
clock value read for it (`millis()` is read anew for every test). -/
def firstDue (env : Env) (s : Device) : Option Task :=
  if due (millisAt env 0) s.gpsLastMillis gpsInterval then some Task.gps
  else if due (millisAt env 1) s.sensLastMillis sensInterval then some Task.sensor
  else if due (millisAt env 2) s.smsLastMillis smsInterval then some Task.sms
  else if due (millisAt env 3) s.lastMillis interval then some Task.upload
  else none

/-- The time that has passed on the 32-bit millisecond clock between the
reading `last` and the later reading `now`: their difference modulo 2^32.  It
is the real elapsed time as long as less than 2^32 ms (49.7 days) have passed,
also when the clock has wrapped in between. -/
def elapsed32 (now last : Nat) : Nat := (now + 2 ^ 32 - last) % 2 ^ 32

/-- The interval of a task has elapsed: the time elapsed since its last run
exceeds the interval. -/
def intervalElapsed (now last ivl : Nat) : Bool := decide (elapsed32 now last > ivl)

/-- The first task in priority order whose interval has elapsed, each one
judged at the clock value read for it. -/
def firstElapsed (env : Env) (s : Device) : Option Task :=
  if intervalElapsed (millisAt env 0) s.gpsLastMillis gpsInterval then some Task.gps
  else if intervalElapsed (millisAt env 1) s.sensLastMillis sensInterval then some Task.sensor
  else if intervalElapsed (millisAt env 2) s.smsLastMillis smsInterval then some Task.sms
  else if intervalElapsed (millisAt env 3) s.lastMillis interval then some Task.upload
  else none

/-- The clock has not wrapped since any of the four timestamps was taken: none
of them is ahead of the clock value read for its test. -/
def noWrap (env : Env) (s : Device) : Prop :=
  s.gpsLastMillis ≤ millisAt env 0 ∧ s.sensLastMillis ≤ millisAt env 1 ∧
  s.smsLastMillis ≤ millisAt env 2 ∧ s.lastMillis ≤ millisAt env 3

instance (env : Env) (s : Device) : Decidable (noWrap env s) := by
  unfold noWrap; infer_instance

/-- The four timestamps hold values of the 32-bit millisecond clock. -/
def clockValues (s : Device) : Prop :=
  s.gpsLastMillis < 2 ^ 32 ∧ s.sensLastMillis < 2 ^ 32 ∧ s.smsLastMillis < 2 ^ 32 ∧
  s.lastMillis < 2 ^ 32

instance (s : Device) : Decidable (clockValues s) := by
  unfold clockValues; infer_instance

/-- The four timestamps of two states agree. -/
def sameTimestamps (s t : Device) : Prop :=
  t.gpsLastMillis = s.gpsLastMillis ∧ t.sensLastMillis = s.sensLastMillis ∧
  t.smsLastMillis = s.smsLastMillis ∧ t.lastMillis = s.lastMillis

instance (s t : Device) : Decidable (sameTimestamps s t) := by
  unfold sameTimestamps; infer_instance

/-- At the start of every iteration of a run the clock has not wrapped since
the GPS task last ran and more than the GPS interval has elapsed since then. -/
def gpsElapsedThroughout : List Env → Device → Bool
  | [], _ => true
  | env :: envs, s =>
    decide (s.gpsLastMillis ≤ millisAt env 0) &&
      intervalElapsed (millisAt env 0) s.gpsLastMillis gpsInterval &&
      gpsElapsedThroughout envs (loop env s)

/-- An environment in which every `millis()` of the iteration returns `now`,
the GPS has no new fix, no SMS is waiting and every modem call succeeds. -/
def quietEnv (now : Nat) (resetAllReturns : Bool) : Env :=
  { millis := fun _ => now, gpsAvailable := false,
    gpsRead := { validLocation := false, latitude := 0, longitude := 0, heading := 0, speed := 0 },
    signalQuality := 20, temperature := 0, humidity := 0, heatIndex := 0, sms := none,
    connectResult := true, postResult := Result.SUCCESS, closeResult := true,
    resetAllReturns := resetAllReturns }

/-- A freshly started device over `recordA` on which `resetAll` has been set. -/
def flaggedDevice : Device := { bootDevice recordA imeiA with resetAll := true }

/-- Two states that differ at most in the bytes of memory outside `config`
(offsets from `sizeof(config)` on) and in what the dispatcher never touches. -/
def agree (s t : Device) : Prop :=
  t.eeprom = s.eeprom ∧ (∀ i, i < CONFIG_SIZE → t.config i = s.config i) ∧ t.imei = s.imei ∧
  t.resetAll = s.resetAll ∧ t.trace = s.trace ∧ t.halted = s.halted

/-- The checksum of a record in the words of the specification: the additive
sum of all bytes that precede the checksum field, truncated to 32 bits. -/
def specChecksum (e : Mem) : Nat :=
  ((bytesAt e 0 CHECKSUM_OFF).map (fun b => b.val)).sum % 2 ^ 32

/-- The load of the specification: the stored bytes when the stored checksum
matches, the all-empty default otherwise. -/
def specLoad (e : Mem) : Mem :=
  if getChecksum e = specChecksum e then e else fun _ => 0

/-- A record with the bytes at the positions `i` and `j` exchanged. -/
def swapBytes (m : Mem) (i j : Nat) : Mem :=
  Function.update (Function.update m i (m j)) j (m i)

/-- The keys of a JSON document, in order. -/
def JsonDoc.keys (d : JsonDoc) : List String := d.map (fun p => p.1)

/-- The twelve keys of the telemetry record. -/
def telemetryKeys : List String :=
  ["mmsi", "cs", "sn", "tmp", "hum", "hix", "lat", "lon", "hdg", "sog", "qos", "upt"]

/-- The device over `recordA` after its owner "+47A" has sent the callsign
"LA12345678", which fills the ten bytes of the field. -/
def longCallsignDevice : Device :=
  smsReceived true (ascii "+47A") (ascii "callsign") (ascii "LA12345678")
    (bootDevice recordA imeiA)

/-- A device whose four timestamps were taken 296 ms before the 32-bit clock wraps. -/
def lateDevice : Device :=
  { bootDevice recordA imeiA with
    lastMillis := 4294967000, sensLastMillis := 4294967000, smsLastMillis := 4294967000,
    gpsLastMillis := 4294967000 }

/-- Modelled from the spec: the full-device reset behind `gprs.resetAll()`
(`resetFull()` among the collaborator interfaces), whose body is not part of
the sources.  The spec has the pending-reset flag cleared by the full-device
reset it triggers, and nothing in the sketch clears it: the device restarts
inside the call and control does not come back. -/
def resetFull (s : Device) : Device := GPRSLib.resetAll false s

/-- A device that has only ever run the GPS task, last at 4294967290 ms, six
milliseconds before the 32-bit clock wraps. -/
def wrappedGpsDevice : Device :=
  { bootDevice recordA imeiA with gpsLastMillis := 4294967290 }

/-! ## Lemmas on the configuration store -/

theorem sumTo_succ (m : Mem) (n : Nat) : sumTo m (n + 1) = sumTo m n + (m n).val := by
  simp [sumTo, bytesAt, List.range_succ]

theorem sumTo_le (m : Mem) (n : Nat) : sumTo m n ≤ 255 * n := by
  induction n with
  | zero => simp [sumTo, bytesAt]
  | succ n ih =>
    rw [sumTo_succ]
    have := (m n).isLt
    omega

theorem dataSum_lt (m : Mem) : dataSum m < UINT_MOD := by
  have := sumTo_le m CHECKSUM_OFF
  simp only [dataSum, UINT_MOD, CHECKSUM_OFF] at *
  omega

theorem loadStep_fst (e : Mem) (st : Mem × Nat) (i : Nat) :
    (loadStep e st i).1 = Function.update st.1 i (e i) := by
  unfold loadStep
  split <;> rfl

theorem loadStep_snd (e : Mem) (st : Mem × Nat) (i : Nat) :
    (loadStep e st i).2 = if i < CHECKSUM_OFF then (st.2 + (e i).val) % UINT_MOD else st.2 := by
  unfold loadStep
  simp only [CONFIG_SIZE, CHECKSUM_OFF]
  split <;> rfl

theorem loadFold_fst (e : Mem) (init : Mem × Nat) (n i : Nat) :
    ((List.range n).foldl (loadStep e) init).1 i = if i < n then e i else init.1 i := by
  induction n with
  | zero => simp
  | succ n ih =>
    rw [List.range_succ, List.foldl_append]
    simp only [List.foldl_cons, List.foldl_nil, loadStep_fst]
    by_cases h : i = n
    · subst h; simp
    · rw [Function.update_noteq h, ih]
      have : (i < n + 1) = (i < n) := by
        apply propext; omega
      simp only [this]

theorem loadFold_snd (e : Mem) (c : Mem) (n : Nat) (hn : n ≤ CHECKSUM_OFF) :
    ((List.range n).foldl (loadStep e) (c, 0)).2 = sumTo e n := by
  induction n with
  | zero => simp [sumTo, bytesAt]
  | succ n ih =>
    rw [List.range_succ, List.foldl_append]
    simp only [List.foldl_cons, List.foldl_nil, loadStep_snd]
    have hlt : n < CHECKSUM_OFF := by omega
    rw [if_pos hlt, ih (by omega), sumTo_succ]
    have h1 := sumTo_le e (n + 1)
    rw [sumTo_succ] at h1
    apply Nat.mod_eq_of_lt
    simp only [CHECKSUM_OFF, UINT_MOD] at *
    omega

theorem loadFold_snd_hi (e : Mem) (c : Mem) (k : Nat) :
    ((List.range (CHECKSUM_OFF + k)).foldl (loadStep e) (c, 0)).2 = dataSum e := by
  induction k with
  | zero => exact loadFold_snd e c CHECKSUM_OFF (Nat.le_refl _)
  | succ k ih =>
    rw [← Nat.add_assoc, List.range_succ, List.foldl_append]
    simp only [List.foldl_cons, List.foldl_nil, loadStep_snd]
    rw [if_neg (by omega)]
    exact ih

theorem loadLoop_fst (e c : Mem) (i : Nat) :
    (loadLoop e c).1 i = if i < CONFIG_SIZE then e i else c i := by
  unfold loadLoop
  rw [loadFold_fst]
  split
  · rfl
  · rename_i h
    simp only [CONFIG_SIZE] at h
    simp only [setChecksum, CHECKSUM_OFF]
    rw [if_neg (by omega), if_neg (by omega), if_neg (by omega), if_neg (by omega)]

theorem loadLoop_snd (e c : Mem) : (loadLoop e c).2 = dataSum e := by
  unfold loadLoop
  exact loadFold_snd_hi e (setChecksum c 0) 4

theorem getChecksum_loadLoop (e c : Mem) : getChecksum (loadLoop e c).1 = getChecksum e := by
  simp [getChecksum, loadLoop_fst, CHECKSUM_OFF, CONFIG_SIZE]

theorem loadMismatch_eq_false_iff (e c : Mem) : loadMismatch e c = false ↔ validRecord e := by
  simp [loadMismatch, validRecord, getChecksum_loadLoop, loadLoop_snd]
theorem setChecksum_low (c : Mem) (v i : Nat) (h : i < CHECKSUM_OFF) : setChecksum c v i = c i := by
  simp only [CHECKSUM_OFF] at h
  simp only [setChecksum, CHECKSUM_OFF]
  rw [if_neg (by omega), if_neg (by omega), if_neg (by omega), if_neg (by omega)]

theorem setChecksum_high (c : Mem) (v i : Nat) (h : CONFIG_SIZE ≤ i) : setChecksum c v i = c i := by
  simp only [CONFIG_SIZE] at h
  simp only [setChecksum, CHECKSUM_OFF]
  rw [if_neg (by omega), if_neg (by omega), if_neg (by omega), if_neg (by omega)]

theorem setChecksum_idem (c : Mem) (v : Nat) : setChecksum (setChecksum c v) v = setChecksum c v := by
  funext i
  simp only [setChecksum]
  split_ifs <;> rfl

theorem getChecksum_setChecksum (c : Mem) (v : Nat) (h : v < 2 ^ 32) :
    getChecksum (setChecksum c v) = v := by
  simp only [getChecksum, setChecksum, CHECKSUM_OFF, Fin.ofNat, Nat.reduceAdd]
  simp
  omega

theorem saveFold_low (c e : Mem) (n : Nat) (hn : n ≤ CHECKSUM_OFF) :
    ((List.range n).foldl saveStep { config := c, sum := 0, eeprom := e }).config = c ∧
    ((List.range n).foldl saveStep { config := c, sum := 0, eeprom := e }).sum = sumTo c n ∧
    ∀ i, ((List.range n).foldl saveStep { config := c, sum := 0, eeprom := e }).eeprom i
      = if i < n then c i else e i := by
  induction n with
  | zero => simp [sumTo, bytesAt]
  | succ n ih =>
    obtain ⟨h1, h2, h3⟩ := ih (by omega)
    rw [List.range_succ, List.foldl_append]
    simp only [List.foldl_cons, List.foldl_nil]
    have hlt : n < CHECKSUM_OFF := by omega
    have hne : ¬ n = CONFIG_SIZE - 4 := by simp only [CONFIG_SIZE, CHECKSUM_OFF] at *; omega
    have hlt2 : n < CONFIG_SIZE - 4 := by simp only [CONFIG_SIZE, CHECKSUM_OFF] at *; omega
    refine ⟨?_, ?_, ?_⟩
    · simp only [saveStep, if_neg hne, h1]
    · simp only [saveStep, if_neg hne, if_pos hlt2, h1, h2, sumTo_succ]
      have hb := sumTo_le c (n + 1)
      rw [sumTo_succ] at hb
      apply Nat.mod_eq_of_lt
      simp only [CHECKSUM_OFF, UINT_MOD] at *
      omega
    · intro i
      simp only [saveStep, if_neg hne, h1, eepromUpdate]
      by_cases h : i = n
      · subst h; simp
      · rw [Function.update_noteq h, h3]
        have : (i < n + 1) = (i < n) := by
          apply propext; omega
        simp only [this]

theorem saveFold_high (c e : Mem) (k : Nat) (hk : k ≤ 4) :
    ((List.range (CHECKSUM_OFF + k)).foldl saveStep { config := c, sum := 0, eeprom := e }).config
      = (if k = 0 then c else setChecksum c (dataSum c)) ∧
    ((List.range (CHECKSUM_OFF + k)).foldl saveStep { config := c, sum := 0, eeprom := e }).sum
      = dataSum c ∧
    ∀ i, ((List.range (CHECKSUM_OFF + k)).foldl saveStep
        { config := c, sum := 0, eeprom := e }).eeprom i
      = if i < CHECKSUM_OFF + k then setChecksum c (dataSum c) i else e i := by
  induction k with
  | zero =>
    obtain ⟨h1, h2, h3⟩ := saveFold_low c e CHECKSUM_OFF (Nat.le_refl _)
    refine ⟨by simpa using h1, by simpa [dataSum] using h2, ?_⟩
    intro i
    rw [Nat.add_zero, h3]
    split
    · rename_i h; rw [setChecksum_low _ _ _ h]
    · rfl
  | succ k ih =>
    obtain ⟨h1, h2, h3⟩ := ih (by omega)
    rw [← Nat.add_assoc, List.range_succ, List.foldl_append]
    simp only [List.foldl_cons, List.foldl_nil]
    have hnlt : ¬ CHECKSUM_OFF + k < CONFIG_SIZE - 4 := by
      simp only [CONFIG_SIZE, CHECKSUM_OFF]; omega
    have hcfg : (if CHECKSUM_OFF + k = CONFIG_SIZE - 4
          then setChecksum ((List.range (CHECKSUM_OFF + k)).foldl saveStep
            { config := c, sum := 0, eeprom := e }).config
            ((List.range (CHECKSUM_OFF + k)).foldl saveStep
              { config := c, sum := 0, eeprom := e }).sum
          else ((List.range (CHECKSUM_OFF + k)).foldl saveStep
            { config := c, sum := 0, eeprom := e }).config) = setChecksum c (dataSum c) := by
      rw [h1, h2]
      by_cases hk0 : k = 0
      · subst hk0; simp [CONFIG_SIZE, CHECKSUM_OFF]
      · rw [if_neg (by simp only [CONFIG_SIZE, CHECKSUM_OFF]; omega), if_neg hk0]
    refine ⟨?_, ?_, ?_⟩
    · simp only [saveStep, hcfg]; simp
    · simp only [saveStep, if_neg hnlt, h2]
    · intro i
      simp only [saveStep, hcfg, eepromUpdate]
      by_cases h : i = CHECKSUM_OFF + k
      · subst h; simp
      · rw [Function.update_noteq h, h3]
        have : (i < CHECKSUM_OFF + k + 1) = (i < CHECKSUM_OFF + k) := by
          apply propext; omega
        simp only [this]

theorem saveConfig_config (c e : Mem) :
    (saveConfig c e).config = setChecksum c (dataSum c) := by
  have h := (saveFold_high c e 4 (Nat.le_refl _)).1
  simpa [saveConfig, CONFIG_SIZE, CHECKSUM_OFF] using h

theorem saveConfig_eeprom (c e : Mem) (i : Nat) :
    (saveConfig c e).eeprom i = if i < CONFIG_SIZE then setChecksum c (dataSum c) i else e i := by
  have h := (saveFold_high c e 4 (Nat.le_refl _)).2.2 i
  simpa [saveConfig, CONFIG_SIZE, CHECKSUM_OFF] using h

theorem bytesAt_length (m : Mem) (off n : Nat) : (bytesAt m off n).length = n := by
  simp [bytesAt]

-- From here on the two loops are used through the lemmas above; closed
-- instances are evaluated with `with_unfolding_all decide`.
attribute [irreducible] saveConfig loadLoop

theorem bytesAt_congr (m m2 : Mem) (off n : Nat) (h : ∀ k, k < n → m (off + k) = m2 (off + k)) :
    bytesAt m off n = bytesAt m2 off n := by
  unfold bytesAt
  apply List.map_congr_left
  intro k hk
  exact h k (List.mem_range.mp hk)

theorem bytesAt_eq_replicate (m : Mem) (off n : Nat) (h : ∀ k, k < n → m (off + k) = 0) :
    bytesAt m off n = List.replicate n 0 := by
  apply List.ext_getElem
  · simp [bytesAt]
  · intro k h1 h2
    simp only [bytesAt, List.getElem_map, List.getElem_range, List.getElem_replicate]
    apply h
    simpa [bytesAt] using h1

theorem bytesAt_eq_iff (m m2 : Mem) (off n : Nat) :
    bytesAt m off n = bytesAt m2 off n ↔ ∀ k, k < n → m (off + k) = m2 (off + k) := by
  constructor
  · intro h k hk
    have h1 : (bytesAt m off n)[k]? = (bytesAt m2 off n)[k]? := by rw [h]
    simpa [bytesAt, hk] using h1
  · exact bytesAt_congr m m2 off n

theorem sameFields_iff (c d : Mem) : sameFields c d ↔ ∀ i, i < CHECKSUM_OFF → c i = d i := by
  unfold sameFields ownerOf mmsiOf shipnameOf callsignOf
  simp only [bytesAt_eq_iff, OWNER_OFF, OWNER_LEN, MMSI_OFF, MMSI_LEN, SHIPNAME_OFF, SHIPNAME_LEN,
    CALLSIGN_OFF, CALLSIGN_LEN, CHECKSUM_OFF]
  constructor
  · rintro ⟨h1, h2, h3, h4⟩ i hi
    by_cases a1 : i < 16
    · simpa using h1 i a1
    · by_cases a2 : i < 32
      · have := h2 (i - 16) (by omega)
        rwa [show 16 + (i - 16) = i by omega] at this
      · by_cases a3 : i < 52
        · have := h3 (i - 32) (by omega)
          rwa [show 32 + (i - 32) = i by omega] at this
        · have := h4 (i - 52) (by omega)
          rwa [show 52 + (i - 52) = i by omega] at this
  · intro h
    refine ⟨?_, ?_, ?_, ?_⟩ <;> intro k hk <;> apply h <;> omega

theorem allEmpty_iff (c : Mem) : allEmpty c ↔ ∀ i, i < CHECKSUM_OFF → c i = 0 := by
  have h := sameFields_iff c (fun _ => 0)
  have e1 : allEmpty c ↔ sameFields c (fun _ => 0) := by
    unfold allEmpty sameFields ownerOf mmsiOf shipnameOf callsignOf
    rw [bytesAt_eq_replicate (fun _ => 0) OWNER_OFF OWNER_LEN (fun _ _ => rfl),
      bytesAt_eq_replicate (fun _ => 0) MMSI_OFF MMSI_LEN (fun _ _ => rfl),
      bytesAt_eq_replicate (fun _ => 0) SHIPNAME_OFF SHIPNAME_LEN (fun _ _ => rfl),
      bytesAt_eq_replicate (fun _ => 0) CALLSIGN_OFF CALLSIGN_LEN (fun _ _ => rfl)]
  rw [e1, h]

theorem sumTo_congr (m m2 : Mem) (n : Nat) (h : ∀ i, i < n → m i = m2 i) :
    sumTo m n = sumTo m2 n := by
  unfold sumTo
  rw [bytesAt_congr m m2 0 n (fun k hk => by simpa using h k hk)]

theorem defaultConfig_apply (c : Mem) (i : Nat) :
    defaultConfig c i = if i < CHECKSUM_OFF then 0 else c i := by
  simp only [defaultConfig, memset0, CALLSIGN_OFF, MMSI_OFF, OWNER_OFF, SHIPNAME_OFF, CHECKSUM_OFF]
  split_ifs <;> first | rfl | omega

theorem loadConfig_valid (e c : Mem) (h : validRecord e) (i : Nat) :
    loadConfig e c i = if i < CONFIG_SIZE then e i else c i := by
  unfold loadConfig
  rw [(loadMismatch_eq_false_iff e c).mpr h]
  simp only [Bool.false_eq_true, if_false]
  exact loadLoop_fst e c i

theorem loadConfig_invalid (e c : Mem) (h : ¬ validRecord e) (i : Nat) :
    loadConfig e c i = if i < CHECKSUM_OFF then 0 else if i < CONFIG_SIZE then e i else c i := by
  unfold loadConfig
  have hm : loadMismatch e c = true := by
    cases hb : loadMismatch e c
    · exact absurd ((loadMismatch_eq_false_iff e c).mp hb) h
    · rfl
  rw [hm]
  simp only [if_true, defaultConfig_apply, loadLoop_fst]

theorem loadConfig_invalid_allEmpty (e c : Mem) (h : ¬ validRecord e) :
    allEmpty (loadConfig e c) := by
  rw [allEmpty_iff]
  intro i hi
  rw [loadConfig_invalid e c h, if_pos hi]

theorem dataSum_saveConfig (c e : Mem) : dataSum (saveConfig c e).eeprom = dataSum c := by
  unfold dataSum
  apply sumTo_congr
  intro i hi
  rw [saveConfig_eeprom, if_pos (by simp only [CONFIG_SIZE, CHECKSUM_OFF] at *; omega),
    setChecksum_low _ _ _ hi]

theorem getChecksum_congr (m m2 : Mem)
    (h : ∀ i, CHECKSUM_OFF ≤ i → i < CONFIG_SIZE → m i = m2 i) :
    getChecksum m = getChecksum m2 := by
  unfold getChecksum
  rw [h CHECKSUM_OFF (Nat.le_refl _) (by decide), h (CHECKSUM_OFF + 1) (by omega) (by decide),
    h (CHECKSUM_OFF + 2) (by omega) (by decide), h (CHECKSUM_OFF + 3) (by omega) (by decide)]

theorem getChecksum_saveConfig (c e : Mem) :
    getChecksum (saveConfig c e).eeprom = dataSum c := by
  rw [getChecksum_congr (saveConfig c e).eeprom (setChecksum c (dataSum c))]
  · apply getChecksum_setChecksum
    have := dataSum_lt c
    simp only [UINT_MOD] at this
    omega
  · intro i _ h2
    rw [saveConfig_eeprom, if_pos h2]

theorem validRecord_saveConfig (c e : Mem) : validRecord (saveConfig c e).eeprom := by
  unfold validRecord
  rw [getChecksum_saveConfig, dataSum_saveConfig]

theorem sumTo_update (m : Mem) (i : Nat) (b : Byte) (n : Nat) (h : i < n) :
    sumTo (Function.update m i b) n + (m i).val = sumTo m n + b.val := by
  induction n with
  | zero => omega
  | succ n ih =>
    rw [sumTo_succ, sumTo_succ]
    by_cases hi : i = n
    · subst hi
      have : sumTo (Function.update m i b) i = sumTo m i := by
        apply sumTo_congr
        intro j hj
        rw [Function.update_noteq (by omega)]
      rw [this]
      simp
      omega
    · have := ih (by omega)
      rw [Function.update_noteq (Ne.symm hi)]
      omega

theorem corrupt_invalid (e : Mem) (hv : validRecord e) (i : Nat) (b : Byte)
    (hi : i < CONFIG_SIZE) (hb : b ≠ e i) : ¬ validRecord (Function.update e i b) := by
  unfold validRecord at *
  have hne : b.val ≠ (e i).val := fun h => hb (Fin.ext h)
  by_cases hlow : i < CHECKSUM_OFF
  · have h1 : getChecksum (Function.update e i b) = getChecksum e := by
      apply getChecksum_congr
      intro j hj _
      rw [Function.update_noteq (by omega)]
    have h2 := sumTo_update e i b CHECKSUM_OFF hlow
    unfold dataSum at *
    omega
  · have h2 : dataSum (Function.update e i b) = dataSum e := by
      apply sumTo_congr
      intro j hj
      rw [Function.update_noteq (by omega)]
    rw [h2, ← hv]
    have hb1 := b.isLt
    have hb2 := (e i).isLt
    simp only [CONFIG_SIZE, CHECKSUM_OFF] at hi hlow
    have hcase : i = 62 ∨ i = 63 ∨ i = 64 ∨ i = 65 := by omega
    simp only [getChecksum, CHECKSUM_OFF]
    rcases hcase with h | h | h | h <;> subst h <;> simp [Function.update] <;> omega
theorem cstr_nil : cstr [] = [] := rfl

theorem cstr_cons (a : Byte) (as : List Byte) :
    cstr (a :: as) = if a = 0 then [] else a :: cstr as := by
  unfold cstr
  by_cases h : a = 0 <;> simp [List.takeWhile_cons, h]

theorem strcmp_eq_zero_iff (a b : List Byte) : strcmp a b = 0 ↔ cstr a = cstr b := by
  induction a generalizing b with
  | nil =>
    cases b with
    | nil => simp [strcmp, cstr_nil]
    | cons y ys =>
      simp only [strcmp, cstr_nil, cstr_cons]
      by_cases hy : y = 0
      · simp [hy]
      · have : (y.val : Int) ≠ 0 := by
          intro h
          apply hy
          apply Fin.ext
          simpa using h
        simp [hy, this]
  | cons x xs ih =>
    cases b with
    | nil =>
      simp only [strcmp, cstr_nil, cstr_cons]
      by_cases hx : x = 0
      · simp [hx]
      · have : (x.val : Int) ≠ 0 := by
          intro h
          apply hx
          apply Fin.ext
          simpa using h
        simp [hx, this]
    | cons y ys =>
      simp only [strcmp, cstr_cons]
      by_cases hxy : x = y
      · subst hxy
        by_cases hx : x = 0
        · simp [hx]
        · simp [hx, ih]
      · have hv : (x.val : Int) - (y.val : Int) ≠ 0 := by
          intro h
          apply hxy
          apply Fin.ext
          omega
        rw [if_pos hxy]
        constructor
        · intro h; exact absurd h hv
        · intro h
          exfalso
          by_cases hx : x = 0
          · by_cases hy : y = 0
            · exact hxy (hx.trans hy.symm)
            · rw [if_pos hx, if_neg hy] at h
              simp at h
          · by_cases hy : y = 0
            · rw [if_neg hx, if_pos hy] at h
              simp at h
            · rw [if_neg hx, if_neg hy] at h
              exact hxy (List.cons.inj h).1

theorem cstr_all_ne (buf : List Byte) : ∀ b ∈ cstr buf, b ≠ 0 := by
  intro b hb
  have := List.mem_takeWhile_imp hb
  simpa using this

theorem cstr_idem (buf : List Byte) : cstr (cstr buf) = cstr buf := by
  unfold cstr
  rw [List.takeWhile_takeWhile]
  simp

/-- Reading a C string from memory in which `src` and a terminator were written. -/
theorem cstr_of_prefix (l : List Byte) (src : List Byte) (hl : src.length < l.length)
    (hp : ∀ k, k ≤ src.length → l.getD k 0 = src.getD k 0) (hs : ∀ b ∈ src, b ≠ 0) :
    cstr l = src := by
  induction src generalizing l with
  | nil =>
    cases l with
    | nil => simp at hl
    | cons x xs =>
      have := hp 0 (Nat.le_refl _)
      simp at this
      simp [cstr_cons, this]
  | cons y ys ih =>
    cases l with
    | nil => simp at hl
    | cons x xs =>
      have h0 := hp 0 (Nat.zero_le _)
      simp at h0
      subst h0
      have hx : x ≠ 0 := hs x (by simp)
      rw [cstr_cons, if_neg hx]
      congr 1
      apply ih
      · simpa using hl
      · intro k hk
        have := hp (k + 1) (by simpa using hk)
        simpa using this
      · intro b hb
        exact hs b (by simp [hb])
/-! ## C1, C2: the configuration store -/

/-- C1: round trip of the configuration store.  For every in-memory Config `c`
and every prior content `e` of the storage, `loadConfig()` run right after
`saveConfig()` passes the checksum test (it does not fall back to the default)
and leaves `owner`, `mmsi`, `shipname` and `callsign` with exactly the bytes
they had before the save. -/
theorem saveConfig_loadConfig_roundtrip (c e : Mem) :
    loadMismatch (saveConfig c e).eeprom (saveConfig c e).config = false ∧
    ownerOf (loadConfig (saveConfig c e).eeprom (saveConfig c e).config) = ownerOf c ∧
    mmsiOf (loadConfig (saveConfig c e).eeprom (saveConfig c e).config) = mmsiOf c ∧
    shipnameOf (loadConfig (saveConfig c e).eeprom (saveConfig c e).config) = shipnameOf c ∧
    callsignOf (loadConfig (saveConfig c e).eeprom (saveConfig c e).config) = callsignOf c := by
  have hv := validRecord_saveConfig c e
  refine ⟨(loadMismatch_eq_false_iff _ _).mpr hv, ?_⟩
  have h : sameFields (loadConfig (saveConfig c e).eeprom (saveConfig c e).config) c := by
    rw [sameFields_iff]
    intro i hi
    have hi2 : i < CONFIG_SIZE := by simp only [CONFIG_SIZE, CHECKSUM_OFF] at *; omega
    rw [loadConfig_valid _ _ hv, if_pos hi2, saveConfig_eeprom, if_pos hi2,
      setChecksum_low _ _ _ hi]
  exact h

/-- C2: checksum sensitivity.  In a record written by `saveConfig()`, replacing
the byte at any one position `i` of the record (data region or checksum field)
by a different value `b` makes `loadConfig()` return the all-empty default
Config. -/
theorem loadConfig_single_byte_corruption (c e c0 : Mem) (i : Nat) (b : Byte)
    (hi : i < CONFIG_SIZE) (hb : b ≠ (saveConfig c e).eeprom i) :
    allEmpty (loadConfig (Function.update (saveConfig c e).eeprom i b) c0) :=
  loadConfig_invalid_allEmpty _ _
    (corrupt_invalid _ (validRecord_saveConfig c e) i b hi hb)

/-- Witness for C2: the record of owner "+47A" with the low checksum byte
(offset 62) replaced by 0. -/
theorem loadConfig_single_byte_corruption_witness :
    (62 < CONFIG_SIZE ∧
      (0 : Byte) ≠ (saveConfig (strcpy (fun _ => 0) OWNER_OFF (ascii "+47A")) blankStorage).eeprom 62) ∧
    allEmpty (loadConfig (Function.update
      (saveConfig (strcpy (fun _ => 0) OWNER_OFF (ascii "+47A")) blankStorage).eeprom 62 0)
      (fun _ => 0)) :=
  ⟨⟨by decide, by with_unfolding_all decide⟩,
    loadConfig_single_byte_corruption (strcpy (fun _ => 0) OWNER_OFF (ascii "+47A")) blankStorage
      (fun _ => 0) 62 0 (by decide) (by with_unfolding_all decide)⟩
/-! ## Lemmas on the dispatcher -/

@[simp] theorem save_eeprom (s : Device) : s.save.eeprom = (saveConfig s.config s.eeprom).eeprom := by
  simp only [Device.save]
@[simp] theorem save_config (s : Device) : s.save.config = (saveConfig s.config s.eeprom).config := by
  simp only [Device.save]
@[simp] theorem save_resetAll (s : Device) : s.save.resetAll = s.resetAll := by
  simp only [Device.save]
@[simp] theorem save_trace (s : Device) : s.save.trace = s.trace := by
  simp only [Device.save]
@[simp] theorem save_halted (s : Device) : s.save.halted = s.halted := by
  simp only [Device.save]
@[simp] theorem save_imei (s : Device) : s.save.imei = s.imei := by
  simp only [Device.save]
@[simp] theorem load_eeprom (s : Device) : s.load.eeprom = s.eeprom := by
  simp only [Device.load]
@[simp] theorem load_config (s : Device) : s.load.config = loadConfig s.eeprom s.config := by
  simp only [Device.load]

theorem smsPrologue_eeprom (tel : List Byte) (s : Device) :
    (smsPrologue tel s).eeprom = s.eeprom := by
  simp only [smsPrologue]; split <;> simp only [Device.load]

theorem smsPrologue_imei (tel : List Byte) (s : Device) :
    (smsPrologue tel s).imei = s.imei := by
  simp only [smsPrologue]; split <;> simp only [Device.load]

theorem smsPrologue_resetAll (tel : List Byte) (s : Device) :
    (smsPrologue tel s).resetAll = s.resetAll := by
  simp only [smsPrologue]; split <;> simp only [Device.load]

theorem smsPrologue_trace (tel : List Byte) (s : Device) :
    (smsPrologue tel s).trace = s.trace := by
  simp only [smsPrologue]; split <;> simp only [Device.load]

theorem smsPrologue_halted (tel : List Byte) (s : Device) :
    (smsPrologue tel s).halted = s.halted := by
  simp only [smsPrologue]; split <;> simp only [Device.load]

theorem bytesAt_succ (m : Mem) (off n : Nat) :
    bytesAt m off (n + 1) = m off :: bytesAt m (off + 1) n := by
  unfold bytesAt
  rw [List.range_succ_eq_map]
  simp only [List.map_cons, List.map_map, Nat.add_zero]
  congr 1
  apply List.map_congr_left
  intro k _
  simp only [Function.comp]
  congr 1
  omega

theorem bytesAt_getD (m : Mem) (off n k : Nat) (h : k < n) :
    (bytesAt m off n).getD k 0 = m (off + k) := by
  simp [bytesAt, List.getD_eq_getElem?_getD, h]

theorem strlen_memFrom_lt_one (c : Mem) :
    strlen (memFrom c OWNER_OFF) < 1 ↔ c 0 = 0 := by
  have : memFrom c OWNER_OFF = c 0 :: bytesAt c 1 65 := by
    simp only [memFrom, CONFIG_SIZE, OWNER_OFF]
    exact bytesAt_succ c 0 65
  rw [this, strlen, cstr_cons]
  by_cases h : c 0 = 0 <;> simp [h]

/-- A C string written at the start of `config`, terminator included, is read back. -/
theorem cstr_memFrom_of_prefix (c : Mem) (tel : List Byte) (hlen : strlen tel < CONFIG_SIZE)
    (h : ∀ k, k ≤ strlen tel → c k = (cstr tel).getD k 0) :
    cstr (memFrom c OWNER_OFF) = cstr tel := by
  apply cstr_of_prefix
  · simp only [memFrom, bytesAt_length, OWNER_OFF]
    exact hlen
  · intro k hk
    have hk2 : k < CONFIG_SIZE - OWNER_OFF := by
      simp only [strlen, OWNER_OFF] at *; omega
    rw [memFrom, bytesAt_getD _ _ _ _ hk2]
    simp only [OWNER_OFF, Nat.zero_add]
    exact h k hk
  · exact cstr_all_ne tel

theorem strcpy_apply_le (c : Mem) (src : List Byte) (k : Nat) (h : k ≤ strlen src) :
    strcpy c OWNER_OFF src k = (cstr src).getD k 0 := by
  simp only [strcpy, OWNER_OFF, Nat.zero_le, Nat.sub_zero, true_and, if_pos h]

theorem strcpy_apply_gt (c : Mem) (src : List Byte) (k : Nat) (h : strlen src < k) :
    strcpy c OWNER_OFF src k = c k := by
  simp only [strcpy, OWNER_OFF, Nat.zero_le, Nat.sub_zero, true_and]
  rw [if_neg (by omega)]

theorem cstr_memFrom_strcpy (c : Mem) (tel : List Byte) (hlen : strlen tel < CONFIG_SIZE) :
    cstr (memFrom (strcpy c OWNER_OFF tel) OWNER_OFF) = cstr tel :=
  cstr_memFrom_of_prefix _ _ hlen (fun k hk => strcpy_apply_le c tel k hk)

theorem memFrom_congr (c d : Mem) (off : Nat) (h : ∀ i, i < CONFIG_SIZE → c i = d i) :
    memFrom c off = memFrom d off := by
  unfold memFrom
  apply bytesAt_congr
  intro k hk
  apply h
  omega
theorem load_save_valid (c e c0 : Mem) :
    loadMismatch (saveConfig c e).eeprom c0 = false ∧
    sameFields (loadConfig (saveConfig c e).eeprom c0) c := by
  have hv := validRecord_saveConfig c e
  refine ⟨(loadMismatch_eq_false_iff _ _).mpr hv, ?_⟩
  rw [sameFields_iff]
  intro i hi
  have hi2 : i < CONFIG_SIZE := by simp only [CONFIG_SIZE, CHECKSUM_OFF] at *; omega
  rw [loadConfig_valid _ _ hv, if_pos hi2, saveConfig_eeprom, if_pos hi2,
    setChecksum_low _ _ _ hi]

theorem sameFields_saveConfig_config (c e : Mem) : sameFields (saveConfig c e).config c := by
  rw [sameFields_iff]
  intro i hi
  rw [saveConfig_config, setChecksum_low _ _ _ hi]

theorem sameFields_saveConfig_eeprom (c e : Mem) : sameFields (saveConfig c e).eeprom c := by
  rw [sameFields_iff]
  intro i hi
  have hi2 : i < CONFIG_SIZE := by simp only [CONFIG_SIZE, CHECKSUM_OFF] at *; omega
  rw [saveConfig_eeprom, if_pos hi2, setChecksum_low _ _ _ hi]

theorem sameFields_symm {c d : Mem} (h : sameFields c d) : sameFields d c := by
  rw [sameFields_iff] at *
  intro i hi
  exact (h i hi).symm

theorem sameFields_trans {a b c : Mem} (h1 : sameFields a b) (h2 : sameFields b c) :
    sameFields a c := by
  rw [sameFields_iff] at *
  intro i hi
  exact (h1 i hi).trans (h2 i hi)

/-- After `saveConfig()` on the device a reload passes the test and returns
the fields held in memory. -/
theorem save_then_load (x : Device) :
    loadMismatch x.save.eeprom x.save.config = false ∧
    sameFields (loadConfig x.save.eeprom x.save.config) x.save.config := by
  simp only [save_eeprom, save_config]
  have h := load_save_valid x.config x.eeprom (saveConfig x.config x.eeprom).config
  exact ⟨h.1, sameFields_trans h.2 (sameFields_symm (sameFields_saveConfig_config _ _))⟩

theorem checksum_bytes (e : Mem) (i : Nat) (h1 : CHECKSUM_OFF ≤ i) (h2 : i < CONFIG_SIZE) :
    setChecksum e (getChecksum e) i = e i := by
  simp only [CONFIG_SIZE, CHECKSUM_OFF] at h1 h2
  have hcase : i = 62 ∨ i = 63 ∨ i = 64 ∨ i = 65 := by omega
  have b0 := (e 62).isLt
  have b1 := (e 63).isLt
  have b2 := (e 64).isLt
  have b3 := (e 65).isLt
  rcases hcase with h | h | h | h <;> subst h <;>
    simp only [setChecksum, getChecksum, CHECKSUM_OFF, Fin.ofNat] <;>
    apply Fin.ext <;> simp <;> omega

/-- Saving a Config that equals a valid stored record leaves the EEPROM as it is. -/
theorem save_valid_noop (c e : Mem) (hv : validRecord e)
    (h : ∀ i, i < CHECKSUM_OFF → c i = e i) : (saveConfig c e).eeprom = e := by
  funext i
  rw [saveConfig_eeprom]
  split
  · rename_i hi
    have hs : dataSum c = getChecksum e := by
      rw [hv]
      exact sumTo_congr c e CHECKSUM_OFF h
    rw [hs]
    by_cases hlow : i < CHECKSUM_OFF
    · rw [setChecksum_low _ _ _ hlow, h i hlow]
    · have : setChecksum c (getChecksum e) i = setChecksum e (getChecksum e) i := by
        simp only [setChecksum]
        simp only [CONFIG_SIZE, CHECKSUM_OFF] at hi hlow
        have hcase : i = 62 ∨ i = 63 ∨ i = 64 ∨ i = 65 := by omega
        rcases hcase with h | h | h | h <;> subst h <;> simp [CHECKSUM_OFF]
      rw [this, checksum_bytes e i (by omega) hi]
  · rfl

theorem smsPrologue_config_nonempty (tel : List Byte) (s : Device)
    (h : loadConfig s.eeprom s.config 0 ≠ 0) :
    (smsPrologue tel s).config = loadConfig s.eeprom s.config := by
  simp only [smsPrologue]
  rw [if_neg]
  · simp only [Device.load]
  · rw [strlen_memFrom_lt_one]
    simpa only [Device.load] using h

theorem smsPrologue_config_empty (tel : List Byte) (s : Device)
    (h : loadConfig s.eeprom s.config 0 = 0) :
    (smsPrologue tel s).config = strcpy (loadConfig s.eeprom s.config) OWNER_OFF tel := by
  simp only [smsPrologue]
  rw [if_pos]
  · simp only [Device.load]
  · rw [strlen_memFrom_lt_one]
    simpa only [Device.load] using h

theorem smsDispatch_reject (r : Bool) (tel cmd val : List Byte) (s : Device)
    (h : strcmp (memFrom s.config OWNER_OFF) tel ≠ 0) :
    smsDispatch r tel cmd val s = s := by
  unfold smsDispatch
  rw [if_pos h]

theorem smsDispatch_other (r : Bool) (tel cmd val : List Byte) (s : Device)
    (h : strcmp (memFrom s.config OWNER_OFF) tel = 0)
    (h1 : strcmp cmd (ascii "resetgsm") ≠ 0) (h2 : strcmp cmd (ascii "reset") ≠ 0)
    (h3 : strcmp cmd (ascii "mmsi") ≠ 0) (h4 : strcmp cmd (ascii "callsign") ≠ 0)
    (h5 : strcmp cmd (ascii "shipname") ≠ 0) :
    smsDispatch r tel cmd val s = if s.halted then s else s.save := by
  unfold smsDispatch
  rw [if_neg (by simpa using h)]
  simp only [if_neg h1, if_neg h2, if_neg h3, if_neg h4, if_neg h5]

theorem smsDispatch_mmsi (r : Bool) (tel val : List Byte) (s : Device)
    (h : strcmp (memFrom s.config OWNER_OFF) tel = 0) (hrun : s.halted = false) :
    smsDispatch r tel (ascii "mmsi") val s
      = ({ s with config := strncpy s.config MMSI_OFF val MMSI_LEN } : Device).save := by
  unfold smsDispatch
  rw [if_neg (by simpa using h)]
  have h1 : strcmp (ascii "mmsi") (ascii "resetgsm") ≠ 0 := by decide
  have h2 : strcmp (ascii "mmsi") (ascii "reset") ≠ 0 := by decide
  have h3 : strcmp (ascii "mmsi") (ascii "mmsi") = 0 := by decide
  simp only [if_neg h1, if_neg h2, if_pos h3, hrun, Bool.false_eq_true, if_false]
theorem getD_of_cstr (l : List Byte) (k : Nat) (hk : k ≤ (cstr l).length) :
    l.getD k 0 = (cstr l).getD k 0 := by
  induction l generalizing k with
  | nil => simp [cstr_nil]
  | cons x xs ih =>
    rw [cstr_cons] at hk ⊢
    by_cases hx : x = 0
    · rw [if_pos hx] at hk ⊢
      have : k = 0 := by simpa using hk
      subst this
      simp [hx]
    · rw [if_neg hx] at hk ⊢
      cases k with
      | zero => simp
      | succ k =>
        have := ih k (by simpa using hk)
        simpa using this

theorem truncTo_eq_map (n : Nat) (v : List Byte) :
    truncTo n v = (List.range n).map (fun k => (cstr v).getD k 0) := by
  apply List.ext_getElem
  · simp [truncTo]
  · intro k h1 h2
    have hk : k < n := by simpa using h2
    simp only [truncTo, List.getElem_take, List.getElem_map, List.getElem_range]
    by_cases hc : k < (cstr v).length
    · rw [List.getElem_append_left hc]
      simp [List.getD_eq_getElem?_getD, hc]
    · rw [List.getElem_append_right (by omega)]
      have hnone : (cstr v)[k]? = none := List.getElem?_eq_none (by omega)
      simp [List.getD_eq_getElem?_getD, hnone]

theorem bytesAt_strncpy (c : Mem) (off : Nat) (v : List Byte) (n : Nat) :
    bytesAt (strncpy c off v n) off n = truncTo n v := by
  rw [truncTo_eq_map]
  unfold bytesAt
  apply List.map_congr_left
  intro k hk
  have hk2 : k < n := List.mem_range.mp hk
  simp only [strncpy]
  rw [if_pos ⟨by omega, by omega⟩]
  congr 1
  omega

/-- After the prologue an authorized sender is found in `config.owner`. -/
theorem smsPrologue_owner (tel : List Byte) (s : Device) (hv : validRecord s.eeprom)
    (htel : strlen tel < OWNER_LEN) (ha : authorized s.eeprom tel) (k : Nat)
    (hk : k ≤ strlen tel) : (smsPrologue tel s).config k = (cstr tel).getD k 0 := by
  have hk66 : k < CONFIG_SIZE := by simp only [OWNER_LEN, CONFIG_SIZE] at *; omega
  have hL : loadConfig s.eeprom s.config 0 = s.eeprom 0 := by
    rw [loadConfig_valid _ _ hv, if_pos (by decide)]
  by_cases h0 : s.eeprom OWNER_OFF = 0
  · rw [smsPrologue_config_empty tel s (by rw [hL]; exact h0)]
    exact strcpy_apply_le _ _ _ hk
  · rw [smsPrologue_config_nonempty tel s (by rw [hL]; exact h0)]
    rw [loadConfig_valid _ _ hv, if_pos hk66]
    have ho : storedOwner s.eeprom = cstr tel := by
      rcases ha with h | h
      · exact h
      · exact absurd h h0
    have h1 := getD_of_cstr (memFrom s.eeprom OWNER_OFF) k (by
      rw [show cstr (memFrom s.eeprom OWNER_OFF) = cstr tel from ho]; exact hk)
    rw [show cstr (memFrom s.eeprom OWNER_OFF) = cstr tel from ho] at h1
    rw [← h1, memFrom, bytesAt_getD _ _ _ _ (by simpa [OWNER_OFF] using hk66)]
    simp [OWNER_OFF]

theorem smsPrologue_unauthorized (tel : List Byte) (s : Device) (hv : validRecord s.eeprom)
    (ha : ¬ authorized s.eeprom tel) :
    strcmp (memFrom (smsPrologue tel s).config OWNER_OFF) tel ≠ 0 := by
  have hL : loadConfig s.eeprom s.config 0 = s.eeprom 0 := by
    rw [loadConfig_valid _ _ hv, if_pos (by decide)]
  have h0 : s.eeprom OWNER_OFF ≠ 0 := fun h => ha (Or.inr h)
  have h1 : storedOwner s.eeprom ≠ cstr tel := fun h => ha (Or.inl h)
  rw [smsPrologue_config_nonempty tel s (by rw [hL]; exact h0)]
  intro hz
  rw [strcmp_eq_zero_iff] at hz
  apply h1
  rw [← hz, storedOwner]
  congr 1
  apply memFrom_congr
  intro i hi
  rw [loadConfig_valid _ _ hv, if_pos hi]

theorem smsReceived_mmsi_authorized (r : Bool) (tel val : List Byte) (s : Device)
    (hrun : s.halted = false) (hv : validRecord s.eeprom) (htel : strlen tel < OWNER_LEN)
    (ha : authorized s.eeprom tel) :
    smsReceived r tel (ascii "mmsi") val s =
      ({ smsPrologue tel s with
          config := strncpy (smsPrologue tel s).config MMSI_OFF val MMSI_LEN } : Device).save := by
  have hcmd : strcmp (ascii "mmsi") (ascii "resetall") ≠ 0 := by decide
  simp only [smsReceived, if_neg hcmd]
  apply smsDispatch_mmsi
  · rw [strcmp_eq_zero_iff]
    apply cstr_memFrom_of_prefix
    · simp only [OWNER_LEN, CONFIG_SIZE] at *; omega
    · intro k hk
      exact smsPrologue_owner tel s hv htel ha k hk
  · rw [smsPrologue_halted]; exact hrun

theorem smsReceived_mmsi_rejected (r : Bool) (tel val : List Byte) (s : Device)
    (hv : validRecord s.eeprom) (ha : ¬ authorized s.eeprom tel) :
    smsReceived r tel (ascii "mmsi") val s = smsPrologue tel s := by
  have hcmd : strcmp (ascii "mmsi") (ascii "resetall") ≠ 0 := by decide
  simp only [smsReceived, if_neg hcmd]
  exact smsDispatch_reject _ _ _ _ _ (smsPrologue_unauthorized tel s hv ha)
/-! ## C3: authorization gate of the `mmsi` command -/

/-- C3, as the code has it.  For a running device with a valid persisted
record and a sender shorter than 16 bytes, `smsReceived(sender, "mmsi", v)`:
if the sender equals the stored owner or the stored owner is empty, the
persisted `mmsi` afterwards is `v` cut to 16 bytes and the persisted owner is
the sender; otherwise the EEPROM is unchanged.  Hence, when the stored `mmsi`
was not already `v` cut to 16 bytes, the persisted `mmsi` equals it afterwards
if and only if the sender was authorized. -/
theorem smsReceived_mmsi_gate (r : Bool) (tel val : List Byte) (s : Device)
    (hrun : s.halted = false) (hv : validRecord s.eeprom) (htel : strlen tel < OWNER_LEN) :
    (authorized s.eeprom tel →
      mmsiOf (smsReceived r tel (ascii "mmsi") val s).eeprom = truncTo MMSI_LEN val ∧
      storedOwner (smsReceived r tel (ascii "mmsi") val s).eeprom = cstr tel) ∧
    (¬ authorized s.eeprom tel →
      (smsReceived r tel (ascii "mmsi") val s).eeprom = s.eeprom) ∧
    (mmsiOf s.eeprom ≠ truncTo MMSI_LEN val →
      (mmsiOf (smsReceived r tel (ascii "mmsi") val s).eeprom = truncTo MMSI_LEN val ↔
        authorized s.eeprom tel)) := by
  have hA : authorized s.eeprom tel →
      mmsiOf (smsReceived r tel (ascii "mmsi") val s).eeprom = truncTo MMSI_LEN val ∧
      storedOwner (smsReceived r tel (ascii "mmsi") val s).eeprom = cstr tel := by
    intro ha
    rw [smsReceived_mmsi_authorized r tel val s hrun hv htel ha]
    simp only [save_eeprom]
    constructor
    · have h := (sameFields_saveConfig_eeprom
        (strncpy (smsPrologue tel s).config MMSI_OFF val MMSI_LEN) (smsPrologue tel s).eeprom).2.1
      rw [h]
      exact bytesAt_strncpy _ _ _ _
    · apply cstr_memFrom_of_prefix
      · simp only [OWNER_LEN, CONFIG_SIZE] at *; omega
      · intro k hk
        have hk16 : k < 16 := by simp only [OWNER_LEN] at htel; omega
        have h := (sameFields_iff _ _).mp (sameFields_saveConfig_eeprom
          (strncpy (smsPrologue tel s).config MMSI_OFF val MMSI_LEN) (smsPrologue tel s).eeprom)
          k (by simp only [CHECKSUM_OFF]; omega)
        rw [h]
        simp only [strncpy, MMSI_OFF]
        rw [if_neg (by omega)]
        exact smsPrologue_owner tel s hv htel ha k hk
  have hB : ¬ authorized s.eeprom tel →
      (smsReceived r tel (ascii "mmsi") val s).eeprom = s.eeprom := by
    intro ha
    rw [smsReceived_mmsi_rejected r tel val s hv ha, smsPrologue_eeprom]
  refine ⟨hA, hB, ?_⟩
  intro hne
  constructor
  · intro h
    by_contra ha
    rw [hB ha] at h
    exact hne h
  · intro ha
    exact (hA ha).1

/-- Witness for C3 (Scenario A): the owner is empty, "+4799999999" sends
mmsi "257123456"; afterwards both are persisted. -/
theorem smsReceived_mmsi_gate_witness :
    ((bootDevice recordEmpty imeiA).halted = false ∧ validRecord recordEmpty ∧
      strlen (ascii "+4799999999") < OWNER_LEN ∧ authorized recordEmpty (ascii "+4799999999")) ∧
    mmsiOf (smsReceived true (ascii "+4799999999") (ascii "mmsi") (ascii "257123456")
      (bootDevice recordEmpty imeiA)).eeprom = truncTo MMSI_LEN (ascii "257123456") ∧
    storedOwner (smsReceived true (ascii "+4799999999") (ascii "mmsi") (ascii "257123456")
      (bootDevice recordEmpty imeiA)).eeprom = cstr (ascii "+4799999999") :=
  ⟨⟨by decide, by with_unfolding_all decide, by decide, by with_unfolding_all decide⟩,
    (smsReceived_mmsi_gate true (ascii "+4799999999") (ascii "257123456")
      (bootDevice recordEmpty imeiA) (by decide) (by with_unfolding_all decide) (by decide)).1
      (by with_unfolding_all decide)⟩

/-- Counterexample to C3 as stated: the stored owner is "+47A" and the stored
mmsi is already "257123456"; the stranger "+47B" sends mmsi "257123456".  The
persisted mmsi afterwards equals the value sent although the sender is neither
the owner nor adopted. -/
theorem smsReceived_mmsi_gate_counterexample :
    (bootDevice recordA imeiA).halted = false ∧ validRecord recordA ∧
    strlen (ascii "+47B") < OWNER_LEN ∧
    ¬ (mmsiOf (smsReceived true (ascii "+47B") (ascii "mmsi") (ascii "257123456")
          (bootDevice recordA imeiA)).eeprom = truncTo MMSI_LEN (ascii "257123456") ↔
        authorized recordA (ascii "+47B")) := by
  with_unfolding_all decide
/-! ## C4: IMEI gate of the `resetall` command -/

/-- The Config built by a successful `resetall`: defaults, then the sender as owner. -/
theorem resetConfig_apply (c : Mem) (tel : List Byte) (i : Nat) (hi : i < CHECKSUM_OFF) :
    strcpy (defaultConfig c) OWNER_OFF tel i = (cstr tel).getD i 0 := by
  by_cases h : i ≤ strlen tel
  · exact strcpy_apply_le _ _ _ h
  · rw [strcpy_apply_gt _ _ _ (by omega), defaultConfig_apply, if_pos hi]
    have hnone : (cstr tel)[i]? = none := List.getElem?_eq_none (by simp only [strlen] at h; omega)
    simp [List.getD_eq_getElem?_getD, hnone]

theorem resetFields_of (m : Mem) (tel : List Byte) (htel : strlen tel < OWNER_LEN)
    (h : ∀ i, i < CHECKSUM_OFF → m i = (cstr tel).getD i 0) :
    ownerOf m = truncTo OWNER_LEN tel ∧ mmsiOf m = List.replicate MMSI_LEN 0 ∧
    shipnameOf m = List.replicate SHIPNAME_LEN 0 ∧ callsignOf m = List.replicate CALLSIGN_LEN 0 := by
  have hz : ∀ i, OWNER_LEN ≤ i → i < CHECKSUM_OFF → m i = 0 := by
    intro i h1 h2
    rw [h i h2]
    have hnone : (cstr tel)[i]? = none :=
      List.getElem?_eq_none (by simp only [strlen] at htel; omega)
    simp [List.getD_eq_getElem?_getD, hnone]
  refine ⟨?_, ?_, ?_, ?_⟩
  · rw [truncTo_eq_map]
    unfold ownerOf bytesAt
    apply List.map_congr_left
    intro k hk
    have hk2 : k < OWNER_LEN := List.mem_range.mp hk
    simp only [OWNER_OFF, Nat.zero_add]
    exact h k (by simp only [OWNER_LEN, CHECKSUM_OFF] at *; omega)
  · apply bytesAt_eq_replicate
    intro k hk
    exact hz _ (by simp only [MMSI_OFF, MMSI_LEN, OWNER_LEN] at *; omega)
      (by simp only [MMSI_OFF, MMSI_LEN, CHECKSUM_OFF] at *; omega)
  · apply bytesAt_eq_replicate
    intro k hk
    exact hz _ (by simp only [SHIPNAME_OFF, SHIPNAME_LEN, OWNER_LEN] at *; omega)
      (by simp only [SHIPNAME_OFF, SHIPNAME_LEN, CHECKSUM_OFF] at *; omega)
  · apply bytesAt_eq_replicate
    intro k hk
    exact hz _ (by simp only [CALLSIGN_OFF, CALLSIGN_LEN, OWNER_LEN] at *; omega)
      (by simp only [CALLSIGN_OFF, CALLSIGN_LEN, CHECKSUM_OFF] at *; omega)

theorem smsReceived_resetall_mismatch (r : Bool) (tel cmd val : List Byte) (s : Device)
    (hc : cstr cmd = ascii "resetall") (hm : cstr val ≠ cstr s.imei) :
    smsReceived r tel cmd val s = smsPrologue tel s := by
  have hcmd : strcmp cmd (ascii "resetall") = 0 := by
    rw [strcmp_eq_zero_iff, hc]; decide
  have hi : strcmp (smsPrologue tel s).imei val ≠ 0 := by
    rw [smsPrologue_imei]
    intro h
    rw [strcmp_eq_zero_iff] at h
    exact hm h.symm
  simp only [smsReceived, if_pos hcmd, if_pos hi]

/-- The outcome of a successful `resetall`: the reset Config has been saved once
or twice, and the flag is set. -/
theorem smsReceived_resetall_match (r : Bool) (tel cmd val : List Byte) (s : Device)
    (htel : strlen tel < OWNER_LEN) (hc : cstr cmd = ascii "resetall")
    (hm : cstr val = cstr s.imei) :
    (smsReceived r tel cmd val s).resetAll = true ∧
    (smsReceived r tel cmd val s).trace = s.trace ∧
    (smsReceived r tel cmd val s).halted = s.halted ∧
    validRecord (smsReceived r tel cmd val s).eeprom ∧
    (∀ i, i < CHECKSUM_OFF → (smsReceived r tel cmd val s).eeprom i = (cstr tel).getD i 0) ∧
    (∀ i, i < CHECKSUM_OFF → (smsReceived r tel cmd val s).config i = (cstr tel).getD i 0) := by
  have hcmd : strcmp cmd (ascii "resetall") = 0 := by
    rw [strcmp_eq_zero_iff, hc]; decide
  have hi : ¬ strcmp (smsPrologue tel s).imei val ≠ 0 := by
    rw [smsPrologue_imei]
    simp only [ne_eq, not_not]
    rw [strcmp_eq_zero_iff]
    exact hm.symm
  have hne : ∀ name : List Byte, cstr name ≠ ascii "resetall" → strcmp cmd name ≠ 0 := by
    intro name hn h
    rw [strcmp_eq_zero_iff, hc] at h
    exact hn h.symm
  simp only [smsReceived, if_pos hcmd, if_neg hi]
  generalize hp : smsPrologue tel s = p
  have hph : p.halted = s.halted := by rw [← hp, smsPrologue_halted]
  have hpt : p.trace = s.trace := by rw [← hp, smsPrologue_trace]
  have hc1 := resetConfig_apply p.config tel
  generalize hc1d : strcpy (defaultConfig p.config) OWNER_OFF tel = c1 at hc1
  have hauth : strcmp (memFrom (saveConfig c1 p.eeprom).config OWNER_OFF) tel = 0 := by
    rw [strcmp_eq_zero_iff]
    apply cstr_memFrom_of_prefix
    · simp only [OWNER_LEN, CONFIG_SIZE] at *; omega
    · intro k hk
      have hk2 : k < CHECKSUM_OFF := by simp only [OWNER_LEN, CHECKSUM_OFF] at *; omega
      rw [saveConfig_config, setChecksum_low _ _ _ hk2]
      exact hc1 k hk2
  rw [smsDispatch_other _ _ _ _ _ (by simpa only [Device.save, hc1d] using hauth)
    (hne _ (by decide)) (hne _ (by decide)) (hne _ (by decide)) (hne _ (by decide))
    (hne _ (by decide))]
  simp only [Device.save, hc1d]
  have hcfg : ∀ i, i < CHECKSUM_OFF → (saveConfig c1 p.eeprom).config i = (cstr tel).getD i 0 := by
    intro i hi2
    rw [saveConfig_config, setChecksum_low _ _ _ hi2]
    exact hc1 i hi2
  have hee : ∀ i, i < CHECKSUM_OFF → (saveConfig c1 p.eeprom).eeprom i = (cstr tel).getD i 0 := by
    intro i hi2
    rw [(sameFields_iff _ _).mp (sameFields_saveConfig_eeprom c1 p.eeprom) i hi2]
    exact hc1 i hi2
  split
  · exact ⟨rfl, hpt, hph, validRecord_saveConfig _ _, hee, hcfg⟩
  · refine ⟨rfl, hpt, hph, validRecord_saveConfig _ _, ?_, ?_⟩
    · intro i hi2
      show (saveConfig _ _).eeprom i = _
      rw [(sameFields_iff _ _).mp (sameFields_saveConfig_eeprom _ _) i hi2]
      exact hcfg i hi2
    · intro i hi2
      show (saveConfig _ _).config i = _
      rw [(sameFields_iff _ _).mp (sameFields_saveConfig_config _ _) i hi2]
      exact hcfg i hi2

/-- C4: IMEI gate.  For every persisted record (valid or not, whoever its
owner is) and every sender shorter than 16 bytes,
`smsReceived(sender, "resetall", v)` with `v` equal to the IMEI persists a
valid record whose owner is the sender and whose other fields are empty, holds
the same fields in memory and sets `resetAll`; with any other `v` it leaves the
EEPROM and `resetAll` as they were.  So an unset flag is set if and only if `v`
equals the IMEI. -/
theorem smsReceived_resetall_gate (r : Bool) (tel val : List Byte) (s : Device)
    (htel : strlen tel < OWNER_LEN) :
    (cstr val = cstr s.imei →
      ownerOf (smsReceived r tel (ascii "resetall") val s).eeprom = truncTo OWNER_LEN tel ∧
      mmsiOf (smsReceived r tel (ascii "resetall") val s).eeprom = List.replicate MMSI_LEN 0 ∧
      shipnameOf (smsReceived r tel (ascii "resetall") val s).eeprom
        = List.replicate SHIPNAME_LEN 0 ∧
      callsignOf (smsReceived r tel (ascii "resetall") val s).eeprom
        = List.replicate CALLSIGN_LEN 0 ∧
      validRecord (smsReceived r tel (ascii "resetall") val s).eeprom ∧
      sameFields (smsReceived r tel (ascii "resetall") val s).config
        (smsReceived r tel (ascii "resetall") val s).eeprom ∧
      (smsReceived r tel (ascii "resetall") val s).resetAll = true) ∧
    (cstr val ≠ cstr s.imei →
      (smsReceived r tel (ascii "resetall") val s).eeprom = s.eeprom ∧
      (smsReceived r tel (ascii "resetall") val s).resetAll = s.resetAll) ∧
    (s.resetAll = false →
      ((smsReceived r tel (ascii "resetall") val s).resetAll = true ↔ cstr val = cstr s.imei)) := by
  have hc : cstr (ascii "resetall") = ascii "resetall" := by decide
  have hB : cstr val ≠ cstr s.imei →
      (smsReceived r tel (ascii "resetall") val s).eeprom = s.eeprom ∧
      (smsReceived r tel (ascii "resetall") val s).resetAll = s.resetAll := by
    intro hm
    rw [smsReceived_resetall_mismatch r tel _ val s hc hm]
    exact ⟨smsPrologue_eeprom tel s, smsPrologue_resetAll tel s⟩
  refine ⟨?_, hB, ?_⟩
  · intro hm
    obtain ⟨h1, _, _, h4, h5, h6⟩ := smsReceived_resetall_match r tel _ val s htel hc hm
    obtain ⟨f1, f2, f3, f4⟩ := resetFields_of _ tel htel h5
    refine ⟨f1, f2, f3, f4, h4, ?_, h1⟩
    rw [sameFields_iff]
    intro i hi
    rw [h5 i hi, h6 i hi]
  · intro hf
    constructor
    · intro h
      by_contra hm
      rw [(hB hm).2, hf] at h
      exact Bool.false_ne_true h
    · intro hm
      exact (smsReceived_resetall_match r tel _ val s htel hc hm).1

/-- Witness for C4: the record is owned by "+47A"; the stranger "+47B" sends
`resetall` with the IMEI and becomes the owner of a reset record. -/
theorem smsReceived_resetall_gate_witness :
    (strlen (ascii "+47B") < OWNER_LEN ∧ cstr imeiA = cstr (bootDevice recordA imeiA).imei) ∧
    ownerOf (smsReceived true (ascii "+47B") (ascii "resetall") imeiA
      (bootDevice recordA imeiA)).eeprom = truncTo OWNER_LEN (ascii "+47B") ∧
    (smsReceived true (ascii "+47B") (ascii "resetall") imeiA
      (bootDevice recordA imeiA)).resetAll = true :=
  ⟨⟨by decide, by decide⟩,
    ((smsReceived_resetall_gate true (ascii "+47B") imeiA (bootDevice recordA imeiA)
      (by decide)).1 (by decide)).1,
    ((smsReceived_resetall_gate true (ascii "+47B") imeiA (bootDevice recordA imeiA)
      (by decide)).1 (by decide)).2.2.2.2.2.2⟩
/-! ## C5, C6, C7: rejection, persistence and unknown commands -/

theorem cstr_memFrom_load (e c : Mem) (hv : validRecord e) :
    cstr (memFrom (loadConfig e c) OWNER_OFF) = storedOwner e := by
  rw [storedOwner]
  congr 1
  apply memFrom_congr
  intro i hi
  rw [loadConfig_valid _ _ hv, if_pos hi]

/-- C5: rejection of a non-owner.  With a valid persisted record whose owner
is not empty, a sender different from that owner and a command other than
`resetall`, `smsReceived` leaves the EEPROM and the flag `resetAll` as they
were and calls no collaborator (no soft and no full reset is requested). -/
theorem smsReceived_rejects_non_owner (r : Bool) (tel cmd val : List Byte) (s : Device)
    (hv : validRecord s.eeprom) (hne : s.eeprom OWNER_OFF ≠ 0)
    (hs : cstr tel ≠ storedOwner s.eeprom) (hc : cstr cmd ≠ ascii "resetall") :
    (smsReceived r tel cmd val s).eeprom = s.eeprom ∧
    (smsReceived r tel cmd val s).resetAll = s.resetAll ∧
    (smsReceived r tel cmd val s).trace = s.trace := by
  have hcmd : strcmp cmd (ascii "resetall") ≠ 0 := by
    intro h
    rw [strcmp_eq_zero_iff] at h
    exact hc h
  have ha : ¬ authorized s.eeprom tel := by
    rintro (h | h)
    · exact hs h.symm
    · exact hne h
  have hrej : smsReceived r tel cmd val s = smsPrologue tel s := by
    simp only [smsReceived, if_neg hcmd]
    exact smsDispatch_reject _ _ _ _ _ (smsPrologue_unauthorized tel s hv ha)
  rw [hrej]
  exact ⟨smsPrologue_eeprom tel s, smsPrologue_resetAll tel s, smsPrologue_trace tel s⟩

/-- Witness for C5 (Scenario B): the owner is "+47A"; "+47B" sends callsign "LA1234". -/
theorem smsReceived_rejects_non_owner_witness :
    (validRecord recordA ∧ recordA OWNER_OFF ≠ 0 ∧ cstr (ascii "+47B") ≠ storedOwner recordA ∧
      cstr (ascii "callsign") ≠ ascii "resetall") ∧
    (smsReceived true (ascii "+47B") (ascii "callsign") (ascii "LA1234")
      (bootDevice recordA imeiA)).eeprom = recordA ∧
    (smsReceived true (ascii "+47B") (ascii "callsign") (ascii "LA1234")
      (bootDevice recordA imeiA)).resetAll = false ∧
    (smsReceived true (ascii "+47B") (ascii "callsign") (ascii "LA1234")
      (bootDevice recordA imeiA)).trace = [] :=
  ⟨⟨by with_unfolding_all decide, by with_unfolding_all decide, by with_unfolding_all decide,
      by decide⟩,
    smsReceived_rejects_non_owner true (ascii "+47B") (ascii "callsign") (ascii "LA1234")
      (bootDevice recordA imeiA) (by with_unfolding_all decide) (by with_unfolding_all decide)
      (by with_unfolding_all decide) (by decide)⟩

theorem load_of_valid_same (e c c0 : Mem) (hv : validRecord e)
    (h : ∀ i, i < CHECKSUM_OFF → e i = c i) :
    loadMismatch e c0 = false ∧ sameFields (loadConfig e c0) c := by
  refine ⟨(loadMismatch_eq_false_iff _ _).mpr hv, ?_⟩
  rw [sameFields_iff]
  intro i hi
  rw [loadConfig_valid _ _ hv, if_pos (by simp only [CONFIG_SIZE, CHECKSUM_OFF] at *; omega)]
  exact h i hi

/-- C6, as the code has it.  For a sender shorter than 16 bytes: whenever
`smsReceived` returns, has not just rejected a `resetall` for a wrong IMEI, and
leaves in memory a Config that differs in some field from the one loaded at
the start of the call, the persisted record holds that Config: a reload right
after the call passes the checksum test and returns the fields held in memory. -/
theorem smsReceived_persists_mutation (r : Bool) (tel cmd val : List Byte) (s : Device)
    (htel : strlen tel < OWNER_LEN)
    (hret : (smsReceived r tel cmd val s).halted = false)
    (hrej : ¬ (cstr cmd = ascii "resetall" ∧ cstr val ≠ cstr s.imei))
    (hmut : ¬ sameFields (smsReceived r tel cmd val s).config (loadConfig s.eeprom s.config)) :
    loadMismatch (smsReceived r tel cmd val s).eeprom (smsReceived r tel cmd val s).config = false ∧
    sameFields
      (loadConfig (smsReceived r tel cmd val s).eeprom (smsReceived r tel cmd val s).config)
      (smsReceived r tel cmd val s).config := by
  by_cases hc : cstr cmd = ascii "resetall"
  · have hm : cstr val = cstr s.imei := by
      by_contra h
      exact hrej ⟨hc, h⟩
    obtain ⟨_, _, _, h4, h5, h6⟩ := smsReceived_resetall_match r tel cmd val s htel hc hm
    apply load_of_valid_same _ _ _ h4
    intro i hi
    rw [h5 i hi, h6 i hi]
  · have hcmd : strcmp cmd (ascii "resetall") ≠ 0 := by
      intro h
      rw [strcmp_eq_zero_iff] at h
      exact hc h
    have heq : smsReceived r tel cmd val s = smsDispatch r tel cmd val (smsPrologue tel s) := by
      simp only [smsReceived, if_neg hcmd]
    rw [heq] at hret hmut ⊢
    by_cases hown : strcmp (memFrom (smsPrologue tel s).config OWNER_OFF) tel ≠ 0
    · exfalso
      rw [smsDispatch_reject _ _ _ _ _ hown] at hmut
      by_cases h0 : loadConfig s.eeprom s.config 0 = 0
      · apply hown
        rw [smsPrologue_config_empty tel s h0, strcmp_eq_zero_iff]
        exact cstr_memFrom_strcpy _ _ (by simp only [OWNER_LEN, CONFIG_SIZE] at *; omega)
      · apply hmut
        rw [smsPrologue_config_nonempty tel s h0, sameFields_iff]
        intro i _
        rfl
    · unfold smsDispatch at hret ⊢
      rw [if_neg hown] at hret ⊢
      simp only at hret ⊢
      generalize (if strcmp cmd (ascii "resetgsm") = 0 then GPRSLib.resetGsm (smsPrologue tel s)
        else if strcmp cmd (ascii "reset") = 0 then GPRSLib.resetAll r (smsPrologue tel s)
        else if strcmp cmd (ascii "mmsi") = 0 then
          ({ smsPrologue tel s with
            config := strncpy (smsPrologue tel s).config MMSI_OFF val MMSI_LEN } : Device)
        else if strcmp cmd (ascii "callsign") = 0 then
          ({ smsPrologue tel s with
            config := strncpy (smsPrologue tel s).config CALLSIGN_OFF val CALLSIGN_LEN } : Device)
        else if strcmp cmd (ascii "shipname") = 0 then
          ({ smsPrologue tel s with
            config := strncpy (smsPrologue tel s).config SHIPNAME_OFF val SHIPNAME_LEN } : Device)
        else smsPrologue tel s) = s1 at hret ⊢
      by_cases hh : s1.halted = true
      · rw [if_pos hh] at hret
        rw [hh] at hret
        exact absurd hret (by decide)
      · rw [if_neg hh]
        exact save_then_load s1

/-- Witness for C6: the owner is empty; "+47B" sends mmsi "257123456", which
adopts the sender and sets the field; both are found by a reload. -/
theorem smsReceived_persists_mutation_witness :
    (strlen (ascii "+47B") < OWNER_LEN ∧
      (smsReceived true (ascii "+47B") (ascii "mmsi") (ascii "257123456")
        (bootDevice recordEmpty imeiA)).halted = false ∧
      ¬ (cstr (ascii "mmsi") = ascii "resetall" ∧
        cstr (ascii "257123456") ≠ cstr (bootDevice recordEmpty imeiA).imei) ∧
      ¬ sameFields (smsReceived true (ascii "+47B") (ascii "mmsi") (ascii "257123456")
          (bootDevice recordEmpty imeiA)).config
        (loadConfig (bootDevice recordEmpty imeiA).eeprom (bootDevice recordEmpty imeiA).config)) ∧
    sameFields
      (loadConfig
        (smsReceived true (ascii "+47B") (ascii "mmsi") (ascii "257123456")
          (bootDevice recordEmpty imeiA)).eeprom
        (smsReceived true (ascii "+47B") (ascii "mmsi") (ascii "257123456")
          (bootDevice recordEmpty imeiA)).config)
      (smsReceived true (ascii "+47B") (ascii "mmsi") (ascii "257123456")
        (bootDevice recordEmpty imeiA)).config :=
  ⟨⟨by decide, by with_unfolding_all decide, by decide, by with_unfolding_all decide⟩,
    (smsReceived_persists_mutation true (ascii "+47B") (ascii "mmsi") (ascii "257123456")
      (bootDevice recordEmpty imeiA) (by decide) (by with_unfolding_all decide) (by decide)
      (by with_unfolding_all decide)).2⟩

/-- Counterexample to C6 as stated: the stored owner is empty and "+47B" sends
`resetall` with a wrong IMEI.  At return the Config in memory has the sender
as owner, which the freshly loaded Config had not, and the persisted record
does not hold it: a reload gives different fields. -/
theorem smsReceived_persists_mutation_counterexample :
    (smsReceived true (ascii "+47B") (ascii "resetall") (ascii "0000")
      (bootDevice recordEmpty imeiA)).halted = false ∧
    ¬ sameFields (smsReceived true (ascii "+47B") (ascii "resetall") (ascii "0000")
        (bootDevice recordEmpty imeiA)).config
      (loadConfig (bootDevice recordEmpty imeiA).eeprom (bootDevice recordEmpty imeiA).config) ∧
    ¬ sameFields
      (loadConfig
        (smsReceived true (ascii "+47B") (ascii "resetall") (ascii "0000")
          (bootDevice recordEmpty imeiA)).eeprom
        (smsReceived true (ascii "+47B") (ascii "resetall") (ascii "0000")
          (bootDevice recordEmpty imeiA)).config)
      (smsReceived true (ascii "+47B") (ascii "resetall") (ascii "0000")
        (bootDevice recordEmpty imeiA)).config := by
  with_unfolding_all decide
theorem smsPrologue_config_same (tel : List Byte) (s : Device) (hv : validRecord s.eeprom)
    (ho : s.eeprom OWNER_OFF ≠ 0 ∨ cstr tel = []) (i : Nat) (hi : i < CONFIG_SIZE) :
    (smsPrologue tel s).config i = s.eeprom i := by
  have hL : ∀ j, j < CONFIG_SIZE → loadConfig s.eeprom s.config j = s.eeprom j := by
    intro j hj
    rw [loadConfig_valid _ _ hv, if_pos hj]
  by_cases h0 : s.eeprom OWNER_OFF = 0
  · have ht : cstr tel = [] := by
      rcases ho with h | h
      · exact absurd h0 h
      · exact h
    rw [smsPrologue_config_empty tel s (by rw [hL 0 (by decide)]; exact h0)]
    by_cases hi0 : i = 0
    · subst hi0
      rw [strcpy_apply_le _ _ _ (Nat.zero_le _), ht]
      simpa [OWNER_OFF] using h0.symm
    · rw [strcpy_apply_gt _ _ _ (by simp only [strlen, ht, List.length_nil]; omega)]
      exact hL i hi
  · rw [smsPrologue_config_nonempty tel s (by rw [hL 0 (by decide)]; exact h0)]
    exact hL i hi

/-- C7, as the code has it.  With a valid persisted record whose owner is not
empty (or with an empty sender), a command name that is none of `resetall`,
`resetgsm`, `reset`, `mmsi`, `callsign`, `shipname` leaves the EEPROM and the
flag `resetAll` unchanged and calls no collaborator, whoever the sender is. -/
theorem smsReceived_unknown_command (r : Bool) (tel cmd val : List Byte) (s : Device)
    (hv : validRecord s.eeprom) (ho : s.eeprom OWNER_OFF ≠ 0 ∨ cstr tel = [])
    (hc : cstr cmd ∉ knownCommands) :
    (smsReceived r tel cmd val s).eeprom = s.eeprom ∧
    (smsReceived r tel cmd val s).resetAll = s.resetAll ∧
    (smsReceived r tel cmd val s).trace = s.trace := by
  have hne : ∀ name : List Byte, name ∈ knownCommands → strcmp cmd name ≠ 0 := by
    intro name hn h
    rw [strcmp_eq_zero_iff] at h
    apply hc
    rw [h]
    revert hn
    simp only [knownCommands, List.mem_cons, List.mem_singleton, List.not_mem_nil, or_false]
    rintro (h | h | h | h | h | h) <;> subst h <;> decide
  have heq : smsReceived r tel cmd val s = smsDispatch r tel cmd val (smsPrologue tel s) := by
    simp only [smsReceived, if_neg (hne (ascii "resetall") (by decide))]
  rw [heq]
  by_cases hown : strcmp (memFrom (smsPrologue tel s).config OWNER_OFF) tel ≠ 0
  · rw [smsDispatch_reject _ _ _ _ _ hown]
    exact ⟨smsPrologue_eeprom tel s, smsPrologue_resetAll tel s, smsPrologue_trace tel s⟩
  · rw [smsDispatch_other _ _ _ _ _ (by simpa using hown) (hne _ (by decide))
      (hne _ (by decide)) (hne _ (by decide)) (hne _ (by decide)) (hne _ (by decide))]
    split
    · exact ⟨smsPrologue_eeprom tel s, smsPrologue_resetAll tel s, smsPrologue_trace tel s⟩
    · refine ⟨?_, ?_, ?_⟩
      · rw [save_eeprom, smsPrologue_eeprom]
        apply save_valid_noop _ _ hv
        intro i hi
        exact smsPrologue_config_same tel s hv ho i
          (by simp only [CONFIG_SIZE, CHECKSUM_OFF] at *; omega)
      · rw [save_resetAll, smsPrologue_resetAll]
      · rw [save_trace, smsPrologue_trace]

/-- Witness for C7: the owner "+47A" itself sends the unknown command "foo". -/
theorem smsReceived_unknown_command_witness :
    (validRecord recordA ∧ (recordA OWNER_OFF ≠ 0 ∨ cstr (ascii "+47A") = []) ∧
      cstr (ascii "foo") ∉ knownCommands) ∧
    (smsReceived true (ascii "+47A") (ascii "foo") (ascii "bar")
      (bootDevice recordA imeiA)).eeprom = recordA :=
  ⟨⟨by with_unfolding_all decide, by with_unfolding_all decide, by decide⟩,
    (smsReceived_unknown_command true (ascii "+47A") (ascii "foo") (ascii "bar")
      (bootDevice recordA imeiA) (by with_unfolding_all decide) (by with_unfolding_all decide)
      (by decide)).1⟩

/-- Counterexample to C7 as stated: on erased storage the unknown command
"foo" from "+47B" rewrites the persisted record (the sender is adopted as
owner and the Config is saved). -/
theorem smsReceived_unknown_command_counterexample :
    cstr (ascii "foo") ∉ knownCommands ∧
    recordOf (smsReceived true (ascii "+47B") (ascii "foo") (ascii "bar")
      (bootDevice blankStorage imeiA)).eeprom ≠ recordOf blankStorage := by
  with_unfolding_all decide
/-! ## Lemmas on the scheduler -/

theorem newEvents_of_append (s t : Device) (evs : List Event) (h : t.trace = s.trace ++ evs) :
    newEvents s t = evs := by
  simp [newEvents, h]

theorem code_due_iff (now last ivl : Nat) (hl : last < 2 ^ 32) (hi : ivl ≤ 30000) :
    (now > (last + ivl) % U64_MOD) ↔ due now last ivl = true := by
  have : (last + ivl) % U64_MOD = last + ivl := by
    apply Nat.mod_eq_of_lt
    simp only [U64_MOD]
    omega
  rw [this]
  simp only [due, decide_eq_true_eq]

theorem millisAt_lt (env : Env) (k : Nat) : millisAt env k < 2 ^ 32 := by
  unfold millisAt
  exact Nat.mod_lt _ (by decide)

/-- What the second part of `smsReceived` leaves alone, and what it may trace. -/
theorem smsDispatch_frame (r : Bool) (tel cmd val : List Byte) (s : Device) :
    sameTimestamps s (smsDispatch r tel cmd val s) ∧
    (smsDispatch r tel cmd val s).resetAll = s.resetAll ∧
    ((smsDispatch r tel cmd val s).trace = s.trace ∨
      (smsDispatch r tel cmd val s).trace = s.trace ++ [Event.resetGsm] ∨
      (smsDispatch r tel cmd val s).trace = s.trace ++ [Event.resetAll]) := by
  unfold smsDispatch sameTimestamps
  simp only [Device.save, GPRSLib.resetGsm, GPRSLib.resetAll, Device.log]
  split_ifs <;> simp

theorem smsPrologue_timestamps (tel : List Byte) (s : Device) :
    sameTimestamps s (smsPrologue tel s) := by
  simp only [smsPrologue, sameTimestamps]
  split <;> simp [Device.load]

theorem smsReceived_frame (r : Bool) (tel cmd val : List Byte) (s : Device) :
    sameTimestamps s (smsReceived r tel cmd val s) ∧
    ((smsReceived r tel cmd val s).trace = s.trace ∨
      (smsReceived r tel cmd val s).trace = s.trace ++ [Event.resetGsm] ∨
      (smsReceived r tel cmd val s).trace = s.trace ++ [Event.resetAll]) := by
  have hp := smsPrologue_timestamps tel s
  have hpt := smsPrologue_trace tel s
  simp only [smsReceived]
  generalize smsPrologue tel s = p at hp hpt
  simp only [sameTimestamps] at hp ⊢
  obtain ⟨a1, a2, a3, a4⟩ := hp
  split_ifs
  · exact ⟨⟨a1, a2, a3, a4⟩, Or.inl hpt⟩
  · obtain ⟨⟨b1, b2, b3, b4⟩, _, b5⟩ := smsDispatch_frame r tel cmd val
      ({ ({ ({ p with config := defaultConfig p.config } : Device) with
            config := strcpy (defaultConfig p.config) OWNER_OFF tel } : Device).save with
          resetAll := true } : Device)
    simp only [Device.save] at b1 b2 b3 b4 b5
    simp only [Device.save]
    refine ⟨⟨by rw [b1, a1], by rw [b2, a2], by rw [b3, a3], by rw [b4, a4]⟩, ?_⟩
    rw [← hpt]
    exact b5
  · obtain ⟨⟨b1, b2, b3, b4⟩, _, b5⟩ := smsDispatch_frame r tel cmd val p
    refine ⟨⟨by rw [b1, a1], by rw [b2, a2], by rw [b3, a3], by rw [b4, a4]⟩, ?_⟩
    rw [← hpt]
    exact b5
theorem gpsTask_spec (env : Env) (s : Device) :
    (gpsTask env s).trace = s.trace ++ [Event.gpsLoop] ∧
    (gpsTask env s).gpsLastMillis = millisAt env 1 ∧
    (gpsTask env s).sensLastMillis = s.sensLastMillis ∧
    (gpsTask env s).smsLastMillis = s.smsLastMillis ∧
    (gpsTask env s).lastMillis = s.lastMillis ∧
    (gpsTask env s).halted = s.halted ∧
    (gpsTask env s).resetAll = s.resetAll := by
  simp only [gpsTask, GPSLib.loop, Device.log]
  split_ifs <;> simp

theorem sensTask_spec (env : Env) (s : Device) :
    (sensTask env s).trace = s.trace ++ [Event.signalQuality, Event.readTemperature,
      Event.readHumidity, Event.computeHeatIndex] ∧
    (sensTask env s).gpsLastMillis = s.gpsLastMillis ∧
    (sensTask env s).sensLastMillis = millisAt env 2 ∧
    (sensTask env s).smsLastMillis = s.smsLastMillis ∧
    (sensTask env s).lastMillis = s.lastMillis ∧
    (sensTask env s).halted = s.halted ∧
    (sensTask env s).resetAll = s.resetAll := by
  simp [sensTask, Device.log]

theorem sendJsonData_eq (env : Env) (data : JsonDoc) (s : Device) :
    sendJsonData env data s =
      ((s.log (Event.connectBearer (ascii "telenor"))).log
        (Event.httpPostJson postUrl data postContentType)).log Event.gprsCloseConn := by
  unfold sendJsonData
  simp only [ite_self]

theorem uploadTask_spec (env : Env) (s : Device) :
    (uploadTask env s).trace = s.trace ++ [Event.connectBearer (ascii "telenor"),
      Event.httpPostJson postUrl (buildJson s.load (millisAt env 4)) postContentType,
      Event.gprsCloseConn] ∧
    (uploadTask env s).gpsLastMillis = s.gpsLastMillis ∧
    (uploadTask env s).sensLastMillis = s.sensLastMillis ∧
    (uploadTask env s).smsLastMillis = s.smsLastMillis ∧
    (uploadTask env s).lastMillis = millisAt env 5 ∧
    (uploadTask env s).halted = s.halted ∧
    (uploadTask env s).resetAll = s.resetAll := by
  unfold uploadTask
  simp only [sendJsonData_eq]
  simp [Device.log, Device.load]

theorem smsRead_spec (env : Env) (s : Device) :
    sameTimestamps s (GPRSLib.smsRead env s) ∧
    ∃ evs, (GPRSLib.smsRead env s).trace = s.trace ++ Event.smsRead :: evs ∧
      (evs = [] ∨ evs = [Event.resetGsm] ∨ evs = [Event.resetAll]) := by
  unfold GPRSLib.smsRead
  cases hsms : env.sms with
  | none =>
    simp only [Device.log]
    exact ⟨⟨rfl, rfl, rfl, rfl⟩, [], rfl, Or.inl rfl⟩
  | some cmd =>
    obtain ⟨tel, name, val⟩ := cmd
    simp only
    obtain ⟨h1, h2⟩ := smsReceived_frame env.resetAllReturns tel name val (s.log Event.smsRead)
    refine ⟨h1, ?_⟩
    rcases h2 with h | h | h
    · exact ⟨[], by rw [h]; simp [Device.log], Or.inl rfl⟩
    · exact ⟨[Event.resetGsm], by rw [h]; simp [Device.log], Or.inr (Or.inl rfl)⟩
    · exact ⟨[Event.resetAll], by rw [h]; simp [Device.log], Or.inr (Or.inr rfl)⟩

theorem smsTask_spec (env : Env) (s : Device) :
    (∃ evs, (smsTask env s).trace = s.trace ++ Event.smsRead :: evs ∧
      (evs = [] ∨ evs = [Event.resetGsm] ∨ evs = [Event.resetAll])) ∧
    (smsTask env s).gpsLastMillis = s.gpsLastMillis ∧
    (smsTask env s).sensLastMillis = s.sensLastMillis ∧
    (smsTask env s).lastMillis = s.lastMillis ∧
    ((smsTask env s).halted = false → (smsTask env s).smsLastMillis = millisAt env 3) := by
  obtain ⟨⟨a1, a2, a3, a4⟩, evs, h1, h2⟩ := smsRead_spec env s
  simp only [smsTask]
  split
  · rename_i hh
    refine ⟨⟨evs, h1, h2⟩, a1, a2, a4, ?_⟩
    intro hf
    rw [hh] at hf
    exact absurd hf (by decide)
  · exact ⟨⟨evs, h1, h2⟩, a1, a2, a4, fun _ => rfl⟩

/-- The chain of conditionals runs the first task that is due, and nothing else. -/
theorem taskChain_spec (env : Env) (s : Device) (hts : clockValues s) :
    (∃ evs, (taskChain env s).trace = s.trace ++ evs ∧
      (evs.filterMap Event.task).dedup = (firstDue env s).toList) ∧
    (firstDue env s ≠ some Task.gps → (taskChain env s).gpsLastMillis = s.gpsLastMillis) ∧
    (firstDue env s ≠ some Task.sensor → (taskChain env s).sensLastMillis = s.sensLastMillis) ∧
    (firstDue env s ≠ some Task.sms → (taskChain env s).smsLastMillis = s.smsLastMillis) ∧
    (firstDue env s ≠ some Task.upload → (taskChain env s).lastMillis = s.lastMillis) ∧
    (firstDue env s = some Task.gps → (taskChain env s).gpsLastMillis = millisAt env 1) ∧
    (firstDue env s = some Task.sensor → (taskChain env s).sensLastMillis = millisAt env 2) ∧
    (firstDue env s = some Task.sms → (taskChain env s).halted = false →
      (taskChain env s).smsLastMillis = millisAt env 3) ∧
    (firstDue env s = some Task.upload → (taskChain env s).lastMillis = millisAt env 5) := by
  obtain ⟨t1, t2, t3, t4⟩ := hts
  unfold taskChain firstDue
  rw [← Bool.not_eq_true] at *
  simp only [code_due_iff _ _ _ t1 (by decide : gpsInterval ≤ 30000),
    code_due_iff _ _ _ t2 (by decide : sensInterval ≤ 30000),
    code_due_iff _ _ _ t3 (by decide : smsInterval ≤ 30000),
    code_due_iff _ _ _ t4 (by decide : interval ≤ 30000)]
  by_cases d1 : due (millisAt env 0) s.gpsLastMillis gpsInterval = true
  · simp only [if_pos d1]
    obtain ⟨g1, g2, g3, g4, g5, _, _⟩ := gpsTask_spec env s
    refine ⟨⟨_, g1, by decide⟩, ?_, ?_, ?_, ?_, ?_, ?_, ?_, ?_⟩ <;> simp [g2, g3, g4, g5]
  · simp only [if_neg d1]
    by_cases d2 : due (millisAt env 1) s.sensLastMillis sensInterval = true
    · simp only [if_pos d2]
      obtain ⟨g1, g2, g3, g4, g5, _, _⟩ := sensTask_spec env s
      refine ⟨⟨_, g1, by decide⟩, ?_, ?_, ?_, ?_, ?_, ?_, ?_, ?_⟩ <;> simp [g2, g3, g4, g5]
    · simp only [if_neg d2]
      by_cases d3 : due (millisAt env 2) s.smsLastMillis smsInterval = true
      · simp only [if_pos d3]
        obtain ⟨⟨evs, g1, g6⟩, g2, g3, g4, g5⟩ := smsTask_spec env s
        refine ⟨⟨_, g1, ?_⟩, ?_, ?_, ?_, ?_, ?_, ?_, ?_, ?_⟩
        · rcases g6 with h | h | h <;> subst h <;> decide
        all_goals simp [g2, g3, g4]
        exact g5
      · simp only [if_neg d3]
        by_cases d4 : due (millisAt env 3) s.lastMillis interval = true
        · simp only [if_pos d4]
          obtain ⟨g1, g2, g3, g4, g5, _, _⟩ := uploadTask_spec env s
          refine ⟨⟨_, g1, ?_⟩, ?_, ?_, ?_, ?_, ?_, ?_, ?_, ?_⟩
          · simp [Event.task]
          all_goals simp [g2, g3, g4, g5]
        · simp only [if_neg d4]
          refine ⟨⟨[], by simp, by simp⟩, ?_, ?_, ?_, ?_, ?_, ?_, ?_, ?_⟩ <;> simp
/-! ## C8: exclusive, priority-ordered task selection -/

theorem loop_eq_taskChain (env : Env) (s : Device) (hrun : s.halted = false)
    (hflag : s.resetAll = false ∨ env.resetAllReturns = true) :
    ∃ pre, (pre = [] ∨ pre = [Event.resetAll]) ∧
      loop env s = taskChain env { s with trace := s.trace ++ pre } := by
  cases s with
  | mk eeprom config imei resetAll lastMillis sensLastMillis smsLastMillis gpsLastMillis qos temp
      humi hidx fix jsonDoc halted trace =>
    simp only at hrun hflag
    subst hrun
    cases resetAll with
    | false =>
      refine ⟨[], Or.inl rfl, ?_⟩
      simp [loop]
    | true =>
      have hr : env.resetAllReturns = true := by
        rcases hflag with h | h
        · exact absurd h (by decide)
        · exact h
      refine ⟨[Event.resetAll], Or.inr rfl, ?_⟩
      simp [loop, GPRSLib.resetAll, Device.log, hr]

theorem intervalElapsed_eq_due (now last ivl : Nat) (h1 : last ≤ now) (h2 : now < 2 ^ 32) :
    intervalElapsed now last ivl = due now last ivl := by
  have he : elapsed32 now last = now - last := by
    unfold elapsed32
    have h3 : now + 2 ^ 32 - last = (now - last) + 2 ^ 32 := by omega
    rw [h3, Nat.add_mod_right]
    apply Nat.mod_eq_of_lt
    omega
  simp only [intervalElapsed, due, he]
  rw [decide_eq_decide]
  omega

theorem clockValues_of_noWrap (env : Env) (s : Device) (h : noWrap env s) : clockValues s := by
  obtain ⟨h1, h2, h3, h4⟩ := h
  have k0 := millisAt_lt env 0
  have k1 := millisAt_lt env 1
  have k2 := millisAt_lt env 2
  have k3 := millisAt_lt env 3
  exact ⟨by omega, by omega, by omega, by omega⟩

theorem firstElapsed_eq_firstDue (env : Env) (s : Device) (h : noWrap env s) :
    firstElapsed env s = firstDue env s := by
  obtain ⟨h1, h2, h3, h4⟩ := h
  unfold firstElapsed firstDue
  rw [intervalElapsed_eq_due _ _ _ h1 (millisAt_lt env 0),
    intervalElapsed_eq_due _ _ _ h2 (millisAt_lt env 1),
    intervalElapsed_eq_due _ _ _ h3 (millisAt_lt env 2),
    intervalElapsed_eq_due _ _ _ h4 (millisAt_lt env 3)]

/-- C9: reset short-circuit.  In every state of a running device in which
`resetAll` is set, one iteration of `loop()` requests a full-device reset, and
with the full reset of the specification (the device restarts inside
`gprs.resetAll()`, which is what clears the flag) that is all it does: the
only collaborator call is the reset request, none of the GPS, sensor, SMS and
upload tasks runs and no timestamp changes, whatever the elapsed times are. -/
theorem loop_reset_short_circuit (env : Env) (s : Device) (hrun : s.halted = false)
    (hflag : s.resetAll = true) (hreset : env.resetAllReturns = false) :
    loop env s = resetFull s ∧
    newEvents s (loop env s) = [Event.resetAll] ∧
    tasksRun s (loop env s) = [] ∧
    sameTimestamps s (loop env s) := by
  have hl : loop env s = resetFull s := by
    simp [loop, hrun, hflag, hreset, resetFull, GPRSLib.resetAll, Device.log]
  have htrace : (resetFull s).trace = s.trace ++ [Event.resetAll] := rfl
  rw [hl]
  refine ⟨rfl, newEvents_of_append s _ _ htrace, ?_, ⟨rfl, rfl, rfl, rfl⟩⟩
  rw [tasksRun, newEvents_of_append s _ _ htrace]
  decide

/-- Witness for C9: the flag is set on a freshly started device, 40000 ms
after the start, when all four intervals have elapsed. -/
theorem loop_reset_short_circuit_witness :
    (flaggedDevice.halted = false ∧ flaggedDevice.resetAll = true ∧
      (quietEnv 40000 false).resetAllReturns = false ∧
      intervalElapsed 40000 flaggedDevice.gpsLastMillis gpsInterval = true) ∧
    newEvents flaggedDevice (loop (quietEnv 40000 false) flaggedDevice) = [Event.resetAll] ∧
    tasksRun flaggedDevice (loop (quietEnv 40000 false) flaggedDevice) = [] ∧
    sameTimestamps flaggedDevice (loop (quietEnv 40000 false) flaggedDevice) :=
  ⟨⟨by decide, by decide, by decide, by decide⟩,
    (loop_reset_short_circuit (quietEnv 40000 false) flaggedDevice (by decide) (by decide)
      (by decide)).2⟩

/-! ## C10: starvation of the lower-priority tasks -/

/-- One iteration in which the GPS task is due: only a reset request and the
GPS task can be traced, and the other three timestamps stay. -/
theorem loop_gps_due (env : Env) (s : Device) (hclk : s.gpsLastMillis < 2 ^ 32)
    (hdue : due (millisAt env 0) s.gpsLastMillis gpsInterval = true) :
    (∃ evs, (loop env s).trace = s.trace ++ evs ∧
      ∀ ev ∈ evs, ev = Event.gpsLoop ∨ ev = Event.resetAll) ∧
    (loop env s).sensLastMillis = s.sensLastMillis ∧
    (loop env s).smsLastMillis = s.smsLastMillis ∧
    (loop env s).lastMillis = s.lastMillis ∧
    (loop env s).gpsLastMillis < 2 ^ 32 := by
  have hchain : ∀ t : Device, t.gpsLastMillis = s.gpsLastMillis →
      taskChain env t = gpsTask env t := by
    intro t ht
    unfold taskChain
    rw [if_pos]
    rw [ht, code_due_iff _ _ _ hclk (by decide)]
    exact hdue
  by_cases hh : s.halted = true
  · have : loop env s = s := by simp [loop, hh]
    rw [this]
    exact ⟨⟨[], by simp, by simp⟩, rfl, rfl, rfl, hclk⟩
  · have hrun : s.halted = false := by simpa using hh
    by_cases hf : s.resetAll = true
    · cases hr : env.resetAllReturns with
      | false =>
        have : loop env s = GPRSLib.resetAll false s := by
          simp [loop, hrun, hf, hr, GPRSLib.resetAll, Device.log]
        rw [this]
        exact ⟨⟨[Event.resetAll], rfl, by simp⟩, rfl, rfl, rfl, hclk⟩
      | true =>
        have : loop env s = taskChain env (GPRSLib.resetAll true s) := by
          simp [loop, hrun, hf, hr, GPRSLib.resetAll, Device.log]
        rw [this, hchain (GPRSLib.resetAll true s) rfl]
        obtain ⟨g1, g2, g3, g4, g5, _, _⟩ := gpsTask_spec env (GPRSLib.resetAll true s)
        refine ⟨⟨[Event.resetAll, Event.gpsLoop], ?_, by simp⟩, g3, g4, g5, ?_⟩
        · rw [g1]
          simp [GPRSLib.resetAll, Device.log]
        · rw [g2]
          exact millisAt_lt env 1
    · have : loop env s = taskChain env s := by
        simp [loop, hrun, hf]
      rw [this, hchain s rfl]
      obtain ⟨g1, g2, g3, g4, g5, _, _⟩ := gpsTask_spec env s
      refine ⟨⟨[Event.gpsLoop], g1, by simp⟩, g3, g4, g5, ?_⟩
      rw [g2]
      exact millisAt_lt env 1

theorem run_gps_elapsed (envs : List Env) (s : Device)
    (hdue : gpsElapsedThroughout envs s = true) :
    (∃ evs, (run envs s).trace = s.trace ++ evs ∧
      ∀ ev ∈ evs, ev = Event.gpsLoop ∨ ev = Event.resetAll) ∧
    (run envs s).sensLastMillis = s.sensLastMillis ∧
    (run envs s).smsLastMillis = s.smsLastMillis ∧
    (run envs s).lastMillis = s.lastMillis := by
  induction envs generalizing s with
  | nil => exact ⟨⟨[], by simp [run], by simp⟩, rfl, rfl, rfl⟩
  | cons env envs ih =>
    simp only [gpsElapsedThroughout, Bool.and_eq_true, decide_eq_true_eq] at hdue
    obtain ⟨⟨hle, hel⟩, hrest⟩ := hdue
    have hlt := millisAt_lt env 0
    have hclk : s.gpsLastMillis < 2 ^ 32 := by omega
    have hd : due (millisAt env 0) s.gpsLastMillis gpsInterval = true := by
      rw [← intervalElapsed_eq_due _ _ _ hle hlt]
      exact hel
    obtain ⟨⟨e1, h1, h2⟩, a1, a2, a3, _⟩ := loop_gps_due env s hclk hd
    obtain ⟨⟨e2, k1, k2⟩, b1, b2, b3⟩ := ih (loop env s) hrest
    simp only [run]
    refine ⟨⟨e1 ++ e2, ?_, ?_⟩, by rw [b1, a1], by rw [b2, a2], by rw [b3, a3]⟩
    · rw [k1, h1, List.append_assoc]
    · intro ev hev
      rcases List.mem_append.mp hev with h | h
      · exact h2 ev h
      · exact k2 ev h

theorem loadConfig_agree (e c d : Mem) (i : Nat) (hi : i < CONFIG_SIZE) :
    loadConfig e c i = loadConfig e d i := by
  by_cases hv : validRecord e
  · rw [loadConfig_valid _ _ hv, loadConfig_valid _ _ hv, if_pos hi, if_pos hi]
  · rw [loadConfig_invalid _ _ hv, loadConfig_invalid _ _ hv, if_pos hi, if_pos hi]

theorem dataSum_agree (c d : Mem) (h : ∀ i, i < CONFIG_SIZE → d i = c i) :
    dataSum d = dataSum c := by
  apply sumTo_congr
  intro i hi
  exact h i (by simp only [CONFIG_SIZE, CHECKSUM_OFF] at *; omega)

theorem setChecksum_agree (c d : Mem) (v : Nat) (h : ∀ i, i < CONFIG_SIZE → d i = c i)
    (i : Nat) (hi : i < CONFIG_SIZE) : setChecksum d v i = setChecksum c v i := by
  simp only [setChecksum]
  split_ifs <;> first | rfl | exact h i hi

theorem agree_refl (s : Device) : agree s s :=
  ⟨rfl, fun _ _ => rfl, rfl, rfl, rfl, rfl⟩

theorem agree_save (s t : Device) (h : agree s t) : agree s.save t.save := by
  obtain ⟨h1, h2, h3, h4, h5, h6⟩ := h
  refine ⟨?_, ?_, ?_, ?_, ?_, ?_⟩
  · rw [save_eeprom, save_eeprom, h1]
    funext i
    rw [saveConfig_eeprom, saveConfig_eeprom, dataSum_agree _ _ h2]
    split
    · rename_i hi
      exact setChecksum_agree _ _ _ h2 i hi
    · rfl
  · intro i hi
    rw [save_config, save_config, saveConfig_config, saveConfig_config, dataSum_agree _ _ h2]
    exact setChecksum_agree _ _ _ h2 i hi
  · rw [save_imei, save_imei, h3]
  · rw [save_resetAll, save_resetAll, h4]
  · rw [save_trace, save_trace, h5]
  · rw [save_halted, save_halted, h6]

theorem agree_config (s t : Device) (h : agree s t) (f : Mem → Mem)
    (hf : ∀ c d : Mem, (∀ i, i < CONFIG_SIZE → d i = c i) →
      ∀ i, i < CONFIG_SIZE → f d i = f c i) :
    agree { s with config := f s.config } { t with config := f t.config } := by
  obtain ⟨h1, h2, h3, h4, h5, h6⟩ := h
  exact ⟨h1, hf _ _ h2, h3, h4, h5, h6⟩

theorem strncpy_agree (off : Nat) (v : List Byte) (n : Nat) (c d : Mem)
    (h : ∀ i, i < CONFIG_SIZE → d i = c i) (i : Nat) (hi : i < CONFIG_SIZE) :
    strncpy d off v n i = strncpy c off v n i := by
  simp only [strncpy]
  split
  · rfl
  · exact h i hi

theorem strcpy_agree (off : Nat) (v : List Byte) (c d : Mem)
    (h : ∀ i, i < CONFIG_SIZE → d i = c i) (i : Nat) (hi : i < CONFIG_SIZE) :
    strcpy d off v i = strcpy c off v i := by
  simp only [strcpy]
  split
  · rfl
  · exact h i hi

theorem defaultConfig_agree (c d : Mem)
    (h : ∀ i, i < CONFIG_SIZE → d i = c i) (i : Nat) (hi : i < CONFIG_SIZE) :
    defaultConfig d i = defaultConfig c i := by
  rw [defaultConfig_apply, defaultConfig_apply]
  split
  · rfl
  · exact h i hi

theorem agree_log (s t : Device) (h : agree s t) (ev : Event) : agree (s.log ev) (t.log ev) := by
  obtain ⟨h1, h2, h3, h4, h5, h6⟩ := h
  exact ⟨h1, h2, h3, h4, by simp only [Device.log, h5], h6⟩

theorem agree_resetAll (s t : Device) (h : agree s t) (r : Bool) :
    agree (GPRSLib.resetAll r s) (GPRSLib.resetAll r t) := by
  obtain ⟨h1, h2, h3, h4, h5, h6⟩ := h
  exact ⟨h1, h2, h3, h4, by simp only [GPRSLib.resetAll, Device.log, h5],
    by simp only [GPRSLib.resetAll, Device.log, h6]⟩

theorem agree_setFlag (s t : Device) (h : agree s t) :
    agree { s with resetAll := true } { t with resetAll := true } := by
  obtain ⟨h1, h2, h3, _, h5, h6⟩ := h
  exact ⟨h1, h2, h3, rfl, h5, h6⟩

theorem agree_ite (p : Prop) [Decidable p] (a b c d : Device) (h1 : agree a c)
    (h2 : agree b d) : agree (if p then a else b) (if p then c else d) := by
  split
  · exact h1
  · exact h2

theorem smsDispatch_agree (r : Bool) (tel cmd val : List Byte) (s t : Device) (h : agree s t) :
    agree (smsDispatch r tel cmd val s) (smsDispatch r tel cmd val t) := by
  have hm : memFrom t.config OWNER_OFF = memFrom s.config OWNER_OFF :=
    memFrom_congr _ _ _ h.2.1
  unfold smsDispatch
  rw [hm]
  apply agree_ite _ _ _ _ _ h
  have hs1 : agree
      (if strcmp cmd (ascii "resetgsm") = 0 then GPRSLib.resetGsm s
        else if strcmp cmd (ascii "reset") = 0 then GPRSLib.resetAll r s
        else if strcmp cmd (ascii "mmsi") = 0 then
          ({ s with config := strncpy s.config MMSI_OFF val MMSI_LEN } : Device)
        else if strcmp cmd (ascii "callsign") = 0 then
          ({ s with config := strncpy s.config CALLSIGN_OFF val CALLSIGN_LEN } : Device)
        else if strcmp cmd (ascii "shipname") = 0 then
          ({ s with config := strncpy s.config SHIPNAME_OFF val SHIPNAME_LEN } : Device)
        else s)
      (if strcmp cmd (ascii "resetgsm") = 0 then GPRSLib.resetGsm t
        else if strcmp cmd (ascii "reset") = 0 then GPRSLib.resetAll r t
        else if strcmp cmd (ascii "mmsi") = 0 then
          ({ t with config := strncpy t.config MMSI_OFF val MMSI_LEN } : Device)
        else if strcmp cmd (ascii "callsign") = 0 then
          ({ t with config := strncpy t.config CALLSIGN_OFF val CALLSIGN_LEN } : Device)
        else if strcmp cmd (ascii "shipname") = 0 then
          ({ t with config := strncpy t.config SHIPNAME_OFF val SHIPNAME_LEN } : Device)
        else t) := by
    apply agree_ite _ _ _ _ _ (agree_log s t h Event.resetGsm)
    apply agree_ite _ _ _ _ _ (agree_resetAll s t h r)
    apply agree_ite _ _ _ _ _ (agree_config s t h _ (strncpy_agree MMSI_OFF val MMSI_LEN))
    apply agree_ite _ _ _ _ _ (agree_config s t h _ (strncpy_agree CALLSIGN_OFF val CALLSIGN_LEN))
    apply agree_ite _ _ _ _ _ (agree_config s t h _ (strncpy_agree SHIPNAME_OFF val SHIPNAME_LEN))
    exact h
  simp only
  rw [← hs1.2.2.2.2.2]
  exact agree_ite _ _ _ _ _ hs1 (agree_save _ _ hs1)

theorem smsPrologue_agree (tel : List Byte) (s t : Device) (h1 : t.eeprom = s.eeprom)
    (h3 : t.imei = s.imei) (h4 : t.resetAll = s.resetAll) (h5 : t.trace = s.trace)
    (h6 : t.halted = s.halted) : agree (smsPrologue tel s) (smsPrologue tel t) := by
  have hl : agree s.load t.load := by
    refine ⟨h1, ?_, h3, h4, h5, h6⟩
    intro i hi
    rw [load_config, load_config, h1]
    exact loadConfig_agree _ _ _ i hi
  have hm : memFrom t.load.config OWNER_OFF = memFrom s.load.config OWNER_OFF :=
    memFrom_congr _ _ _ hl.2.1
  simp only [smsPrologue]
  rw [hm]
  exact agree_ite _ _ _ _ _ (agree_config _ _ hl _ (strcpy_agree OWNER_OFF tel)) hl

/-- The outcome of `smsReceived` does not depend on the Config held in memory
before the call. -/
theorem smsReceived_agree (r : Bool) (tel cmd val : List Byte) (s t : Device)
    (h1 : t.eeprom = s.eeprom) (h3 : t.imei = s.imei) (h4 : t.resetAll = s.resetAll)
    (h5 : t.trace = s.trace) (h6 : t.halted = s.halted) :
    agree (smsReceived r tel cmd val s) (smsReceived r tel cmd val t) := by
  have hp := smsPrologue_agree tel s t h1 h3 h4 h5 h6
  simp only [smsReceived]
  generalize smsPrologue tel s = p at hp
  generalize smsPrologue tel t = q at hp
  have hi : strcmp q.imei val = strcmp p.imei val := by rw [hp.2.2.1]
  rw [hi]
  apply agree_ite
  · exact agree_ite _ _ _ _ _ hp (by
      apply smsDispatch_agree
      have k1 := agree_config p q hp _ defaultConfig_agree
      have k2 := agree_config _ _ k1 _ (strcpy_agree OWNER_OFF tel)
      exact agree_setFlag _ _ (agree_save _ _ k2))
  · exact smsDispatch_agree r tel cmd val p q hp

/-- C11: authorization uses only freshly reloaded state.  Two runs of
`smsReceived` on the same EEPROM, the same IMEI, the same flag, trace and
(sender, command, value), started with arbitrary different contents of the
in-memory Config, end with the same EEPROM, the same `owner`, `mmsi`,
`shipname` and `callsign` in memory, the same flag `resetAll` and the same
collaborator calls (so the same reset requests). -/
theorem smsReceived_ignores_cached_config (r : Bool) (tel cmd val : List Byte) (s : Device)
    (c : Mem) :
    (smsReceived r tel cmd val { s with config := c }).eeprom
      = (smsReceived r tel cmd val s).eeprom ∧
    ownerOf (smsReceived r tel cmd val { s with config := c }).config
      = ownerOf (smsReceived r tel cmd val s).config ∧
    mmsiOf (smsReceived r tel cmd val { s with config := c }).config
      = mmsiOf (smsReceived r tel cmd val s).config ∧
    shipnameOf (smsReceived r tel cmd val { s with config := c }).config
      = shipnameOf (smsReceived r tel cmd val s).config ∧
    callsignOf (smsReceived r tel cmd val { s with config := c }).config
      = callsignOf (smsReceived r tel cmd val s).config ∧
    (smsReceived r tel cmd val { s with config := c }).resetAll
      = (smsReceived r tel cmd val s).resetAll ∧
    (smsReceived r tel cmd val { s with config := c }).trace
      = (smsReceived r tel cmd val s).trace := by
  have hfin := smsReceived_agree r tel cmd val s { s with config := c } rfl rfl rfl rfl rfl
  obtain ⟨h1, h2, _, h4, h5, _⟩ := hfin
  have hsf : sameFields (smsReceived r tel cmd val { s with config := c }).config
      (smsReceived r tel cmd val s).config := by
    rw [sameFields_iff]
    intro i hi
    exact h2 i (by simp only [CONFIG_SIZE, CHECKSUM_OFF] at *; omega)
  exact ⟨h1, hsf.1, hsf.2.1, hsf.2.2.1, hsf.2.2.2, h4, h5⟩

/-! ## C12, C13: the flag `resetAll` and the `reset` command -/

theorem smsReceived_resetAll_cases (r : Bool) (tel cmd val : List Byte) (s : Device) :
    (smsReceived r tel cmd val s).resetAll = s.resetAll ∨
    (cstr cmd = ascii "resetall" ∧ cstr val = cstr s.imei) := by
  simp only [smsReceived]
  by_cases hc : strcmp cmd (ascii "resetall") = 0
  · rw [if_pos hc]
    by_cases hm : strcmp (smsPrologue tel s).imei val ≠ 0
    · rw [if_pos hm]
      exact Or.inl (smsPrologue_resetAll tel s)
    · right
      rw [strcmp_eq_zero_iff] at hc
      simp only [ne_eq, not_not] at hm
      rw [smsPrologue_imei, strcmp_eq_zero_iff] at hm
      exact ⟨hc, hm.symm⟩
  · rw [if_neg hc]
    left
    rw [(smsDispatch_frame r tel cmd val (smsPrologue tel s)).2.1, smsPrologue_resetAll]

theorem taskChain_resetAll_cases (env : Env) (s : Device) :
    (taskChain env s).resetAll = s.resetAll ∨
    ∃ tel cmd val, env.sms = some (tel, cmd, val) ∧ cstr cmd = ascii "resetall" ∧
      cstr val = cstr s.imei := by
  unfold taskChain
  split_ifs
  · exact Or.inl (gpsTask_spec env s).2.2.2.2.2.2
  · exact Or.inl (sensTask_spec env s).2.2.2.2.2.2
  · have hsms : (smsTask env s).resetAll = (GPRSLib.smsRead env s).resetAll := by
      simp only [smsTask]
      split <;> rfl
    rw [hsms]
    unfold GPRSLib.smsRead
    cases hs : env.sms with
    | none => exact Or.inl rfl
    | some c =>
      obtain ⟨tel, cmd, val⟩ := c
      simp only
      rcases smsReceived_resetAll_cases env.resetAllReturns tel cmd val (s.log Event.smsRead)
        with h | h
      · exact Or.inl h
      · exact Or.inr ⟨tel, cmd, val, rfl, h⟩
  · exact Or.inl (uploadTask_spec env s).2.2.2.2.2.2
  · exact Or.inl rfl

/-- C12: the flag `resetAll` starts false and is set only by a successful
`resetall`.  It is false when `loop()` is first called.  A call of
`smsReceived` that starts with the flag unset and ends with it set has the
command name `resetall` and a value equal to the IMEI; so no other command
sets it, and `reset` in particular leaves it unset.  An iteration of `loop()`
that starts with the flag unset ends with it set only when its SMS poll handed
such a successful `resetall` to `smsReceived`; `loop()` itself never sets it. -/
theorem resetAll_set_only_by_resetall (r : Bool) (tel cmd val : List Byte) (env : Env)
    (s : Device) (hflag : s.resetAll = false) :
    (∀ e imei, (bootDevice e imei).resetAll = false) ∧
    ((smsReceived r tel cmd val s).resetAll = true →
      cstr cmd = ascii "resetall" ∧ cstr val = cstr s.imei) ∧
    (cstr cmd = ascii "reset" → (smsReceived r tel cmd val s).resetAll = false) ∧
    (env.sms = none → (loop env s).resetAll = false) ∧
    ((loop env s).resetAll = true →
      ∃ t c v, env.sms = some (t, c, v) ∧ cstr c = ascii "resetall" ∧ cstr v = cstr s.imei) := by
  have hsms : (smsReceived r tel cmd val s).resetAll = true →
      cstr cmd = ascii "resetall" ∧ cstr val = cstr s.imei := by
    intro h
    rcases smsReceived_resetAll_cases r tel cmd val s with h1 | h1
    · rw [h1, hflag] at h
      exact absurd h (by decide)
    · exact h1
  have hloop : (loop env s).resetAll = true →
      ∃ t c v, env.sms = some (t, c, v) ∧ cstr c = ascii "resetall" ∧ cstr v = cstr s.imei := by
    intro h
    have hl : loop env s = if s.halted then s else taskChain env s := by
      by_cases hh : s.halted = true <;> simp [loop, hflag, hh]
    rw [hl] at h
    split at h
    · rw [hflag] at h
      exact absurd h (by decide)
    · rcases taskChain_resetAll_cases env s with h1 | h1
      · rw [h1, hflag] at h
        exact absurd h (by decide)
      · exact h1
  refine ⟨fun _ _ => rfl, hsms, ?_, ?_, hloop⟩
  · intro hc
    cases hr : (smsReceived r tel cmd val s).resetAll with
    | false => rfl
    | true =>
      have h1 := (hsms hr).1
      rw [hc] at h1
      exact absurd h1 (by decide)
  · intro hnone
    cases hr : (loop env s).resetAll with
    | false => rfl
    | true =>
      obtain ⟨t, c, v, h1, _⟩ := hloop hr
      rw [hnone] at h1
      exact absurd h1 (by simp)

/-- Witness for C12: from an unset flag, the owner's `reset` leaves it unset,
and so does an iteration of `loop()` without incoming SMS. -/
theorem resetAll_set_only_by_resetall_witness :
    ((bootDevice recordA imeiA).resetAll = false ∧ cstr (ascii "reset") = ascii "reset" ∧
      (quietEnv 40000 true).sms = none) ∧
    (smsReceived true (ascii "+47A") (ascii "reset") (ascii "") (bootDevice recordA imeiA)).resetAll
      = false ∧
    (loop (quietEnv 40000 true) (bootDevice recordA imeiA)).resetAll = false :=
  ⟨⟨by decide, by decide, by decide⟩,
    (resetAll_set_only_by_resetall true (ascii "+47A") (ascii "reset") (ascii "")
      (quietEnv 40000 true) (bootDevice recordA imeiA) (by decide)).2.2.1 (by decide),
    (resetAll_set_only_by_resetall true (ascii "+47A") (ascii "reset") (ascii "")
      (quietEnv 40000 true) (bootDevice recordA imeiA) (by decide)).2.2.2.1 (by decide)⟩

theorem smsDispatch_reset (r : Bool) (tel val : List Byte) (s : Device)
    (h : strcmp (memFrom s.config OWNER_OFF) tel = 0) :
    smsDispatch r tel (ascii "reset") val s =
      if (GPRSLib.resetAll r s).halted then GPRSLib.resetAll r s
      else (GPRSLib.resetAll r s).save := by
  unfold smsDispatch
  rw [if_neg (by simpa using h)]
  have h1 : strcmp (ascii "reset") (ascii "resetgsm") ≠ 0 := by decide
  have h2 : strcmp (ascii "reset") (ascii "reset") = 0 := by decide
  simp only [if_neg h1, if_pos h2]

/-- The owner of a valid record passes the owner check after the prologue. -/
theorem smsPrologue_owner_check (tel : List Byte) (s : Device) (hv : validRecord s.eeprom)
    (hne : s.eeprom OWNER_OFF ≠ 0) (hs : storedOwner s.eeprom = cstr tel) :
    strcmp (memFrom (smsPrologue tel s).config OWNER_OFF) tel = 0 := by
  rw [strcmp_eq_zero_iff, ← hs, storedOwner]
  congr 1
  apply memFrom_congr
  intro i hi
  exact smsPrologue_config_same tel s hv (Or.inl hne) i hi

/-- C13, as the code has it.  With a valid persisted record whose owner is not
empty and is the sender, `smsReceived(sender, "reset", v)` requests a full
reset from the modem at once (one call of `gprs.resetAll()`), leaves the flag
`resetAll` as it was and leaves the EEPROM unchanged. -/
theorem smsReceived_reset_command (r : Bool) (tel val : List Byte) (s : Device)
    (hv : validRecord s.eeprom) (hne : s.eeprom OWNER_OFF ≠ 0)
    (hs : storedOwner s.eeprom = cstr tel) :
    (smsReceived r tel (ascii "reset") val s).trace = s.trace ++ [Event.resetAll] ∧
    (smsReceived r tel (ascii "reset") val s).resetAll = s.resetAll ∧
    (smsReceived r tel (ascii "reset") val s).eeprom = s.eeprom := by
  have hcmd : strcmp (ascii "reset") (ascii "resetall") ≠ 0 := by decide
  have heq : smsReceived r tel (ascii "reset") val s
      = smsDispatch r tel (ascii "reset") val (smsPrologue tel s) := by
    simp only [smsReceived, if_neg hcmd]
  rw [heq, smsDispatch_reset r tel val _ (smsPrologue_owner_check tel s hv hne hs)]
  have ht : (GPRSLib.resetAll r (smsPrologue tel s)).trace = s.trace ++ [Event.resetAll] := by
    simp only [GPRSLib.resetAll, Device.log, smsPrologue_trace]
  have hf : (GPRSLib.resetAll r (smsPrologue tel s)).resetAll = s.resetAll := by
    simp only [GPRSLib.resetAll, Device.log, smsPrologue_resetAll]
  have he : (GPRSLib.resetAll r (smsPrologue tel s)).eeprom = s.eeprom := by
    simp only [GPRSLib.resetAll, Device.log, smsPrologue_eeprom]
  have hc : (GPRSLib.resetAll r (smsPrologue tel s)).config = (smsPrologue tel s).config := by
    simp only [GPRSLib.resetAll, Device.log]
  split
  · exact ⟨ht, hf, he⟩
  · refine ⟨by rw [save_trace, ht], by rw [save_resetAll, hf], ?_⟩
    rw [save_eeprom, he, hc]
    apply save_valid_noop _ _ hv
    intro i hi
    exact smsPrologue_config_same tel s hv (Or.inl hne) i
      (by simp only [CONFIG_SIZE, CHECKSUM_OFF] at *; omega)

/-- Witness for C13: the owner "+47A" of `recordA` sends `reset`. -/
theorem smsReceived_reset_command_witness :
    (validRecord recordA ∧ recordA OWNER_OFF ≠ 0 ∧ storedOwner recordA = cstr (ascii "+47A")) ∧
    (smsReceived true (ascii "+47A") (ascii "reset") (ascii "") (bootDevice recordA imeiA)).trace
      = [] ++ [Event.resetAll] ∧
    (smsReceived true (ascii "+47A") (ascii "reset") (ascii "") (bootDevice recordA imeiA)).resetAll
      = false ∧
    (smsReceived true (ascii "+47A") (ascii "reset") (ascii "") (bootDevice recordA imeiA)).eeprom
      = recordA :=
  ⟨⟨by with_unfolding_all decide, by with_unfolding_all decide, by with_unfolding_all decide⟩,
    smsReceived_reset_command true (ascii "+47A") (ascii "") (bootDevice recordA imeiA)
      (by with_unfolding_all decide) (by with_unfolding_all decide)
      (by with_unfolding_all decide)⟩

/-- Counterexample to C13 as stated: the owner "+47A" of the valid record
`recordA` sends `reset`; at return the flag `resetAll` is still unset, whether
the reset call returns or not. -/
theorem smsReceived_reset_command_counterexample :
    validRecord recordA ∧ recordA OWNER_OFF ≠ 0 ∧ storedOwner recordA = cstr (ascii "+47A") ∧
    (smsReceived true (ascii "+47A") (ascii "reset") (ascii "") (bootDevice recordA imeiA)).resetAll
      = false ∧
    (smsReceived false (ascii "+47A") (ascii "reset") (ascii "") (bootDevice recordA imeiA)).resetAll
      = false := by
  with_unfolding_all decide

/-! ## C14, C15, C16: upload cycle, telemetry record, reference load -/

/-- C14: upload cycle call sequence.  Whatever the collaborators answer (any
result of connect, post and close), one call of `sendJsonData` makes exactly
three collaborator calls, in this order: one connect with the APN "telenor",
one post of the given record to `postUrl` with content type
"application/json", one close.  The outcome of the call does not depend on the
answers, so the close is attempted after a failed connect or post as well and
its own result is ignored. -/
theorem sendJsonData_call_sequence (env env2 : Env) (data : JsonDoc) (s : Device) :
    newEvents s (sendJsonData env data s) =
      [Event.connectBearer (ascii "telenor"),
        Event.httpPostJson postUrl data postContentType, Event.gprsCloseConn] ∧
    postContentType = ascii "application/json" ∧
    sendJsonData env2 data s = sendJsonData env data s ∧
    (sendJsonData env data s).eeprom = s.eeprom ∧
    (sendJsonData env data s).halted = s.halted := by
  rw [sendJsonData_eq, sendJsonData_eq]
  refine ⟨?_, rfl, rfl, rfl, rfl⟩
  apply newEvents_of_append
  simp [Device.log]

/-- C15, at a failing input.  The owner "+47A" has set the callsign
"LA12345678", which fills the ten bytes of the field, so `strncpy` wrote no
terminator.  The next upload builds a record with the twelve keys, but its
`cs` value is read as a C string from `config.callsign` and runs on into the
checksum field: it is the ten bytes of the callsign followed by the two
non-zero checksum bytes 219 and 4, twelve bytes for a field of ten. -/
theorem telemetry_callsign_overrun :
    callsignOf longCallsignDevice.eeprom = ascii "LA12345678" ∧
    newEvents longCallsignDevice (uploadTask (quietEnv 40000 true) longCallsignDevice) =
      [Event.connectBearer (ascii "telenor"),
        Event.httpPostJson postUrl (buildJson longCallsignDevice.load 40000) postContentType,
        Event.gprsCloseConn] ∧
    (buildJson longCallsignDevice.load 40000).keys = telemetryKeys ∧
    (buildJson longCallsignDevice.load 40000).lookup "cs"
      = some (JVal.str (ascii "LA12345678" ++ [219, 4])) ∧
    CALLSIGN_LEN < (ascii "LA12345678" ++ [219, 4]).length := by
  have hm : millisAt (quietEnv 40000 true) 4 = 40000 := by decide
  refine ⟨by with_unfolding_all decide, ?_, by with_unfolding_all decide,
    by with_unfolding_all decide, by decide⟩
  rw [← hm]
  exact newEvents_of_append _ _ _ (uploadTask_spec _ _).1

theorem specChecksum_eq (e : Mem) : specChecksum e = dataSum e := by
  have h := dataSum_lt e
  simp only [UINT_MOD] at h
  show dataSum e % 2 ^ 32 = dataSum e
  apply Nat.mod_eq_of_lt
  omega

/-- C16: reference behaviour of `loadConfig` on arbitrary storage.  For every
EEPROM content the fields that `loadConfig()` leaves in memory are those of the
load of the specification: the stored `owner`, `mmsi`, `shipname` and
`callsign` bytes when the stored 32-bit checksum equals the additive sum of the
preceding bytes, four empty fields otherwise; the code takes the default
branch exactly when the specification does; the EEPROM is not modified.  Erased
storage (all bytes 0xFF) loads as the all-empty default Config. -/
theorem loadConfig_refines_spec (s : Device) (c : Mem) :
    ownerOf s.load.config = ownerOf (specLoad s.eeprom) ∧
    mmsiOf s.load.config = mmsiOf (specLoad s.eeprom) ∧
    shipnameOf s.load.config = shipnameOf (specLoad s.eeprom) ∧
    callsignOf s.load.config = callsignOf (specLoad s.eeprom) ∧
    (loadMismatch s.eeprom s.config = false ↔ getChecksum s.eeprom = specChecksum s.eeprom) ∧
    s.load.eeprom = s.eeprom ∧
    allEmpty (specLoad blankStorage) ∧ allEmpty (loadConfig blankStorage c) := by
  have hiff : loadMismatch s.eeprom s.config = false ↔
      getChecksum s.eeprom = specChecksum s.eeprom := by
    rw [loadMismatch_eq_false_iff, specChecksum_eq]
    rfl
  have hsf : sameFields s.load.config (specLoad s.eeprom) := by
    rw [sameFields_iff, load_config]
    intro i hi
    have hi2 : i < CONFIG_SIZE := by simp only [CONFIG_SIZE, CHECKSUM_OFF] at *; omega
    unfold specLoad
    rw [specChecksum_eq]
    by_cases hv : validRecord s.eeprom
    · rw [loadConfig_valid _ _ hv, if_pos hi2, if_pos (show getChecksum s.eeprom = dataSum s.eeprom from hv)]
    · rw [loadConfig_invalid _ _ hv, if_pos hi,
        if_neg (show ¬ getChecksum s.eeprom = dataSum s.eeprom from hv)]
  have hblank : ¬ validRecord blankStorage := by decide
  refine ⟨hsf.1, hsf.2.1, hsf.2.2.1, hsf.2.2.2, hiff, load_eeprom s, ?_,
    loadConfig_invalid_allEmpty _ _ hblank⟩
  rw [allEmpty_iff]
  intro i _
  unfold specLoad
  rw [specChecksum_eq, if_neg (show ¬ getChecksum blankStorage = dataSum blankStorage from hblank)]

/-! ## C17: frame of a field-setting command -/

theorem smsDispatch_callsign (r : Bool) (tel val : List Byte) (s : Device)
    (h : strcmp (memFrom s.config OWNER_OFF) tel = 0) (hrun : s.halted = false) :
    smsDispatch r tel (ascii "callsign") val s
      = ({ s with config := strncpy s.config CALLSIGN_OFF val CALLSIGN_LEN } : Device).save := by
  unfold smsDispatch
  rw [if_neg (by simpa using h)]
  have h1 : strcmp (ascii "callsign") (ascii "resetgsm") ≠ 0 := by decide
  have h2 : strcmp (ascii "callsign") (ascii "reset") ≠ 0 := by decide
  have h3 : strcmp (ascii "callsign") (ascii "mmsi") ≠ 0 := by decide
  have h4 : strcmp (ascii "callsign") (ascii "callsign") = 0 := by decide
  simp only [if_neg h1, if_neg h2, if_neg h3, if_pos h4, hrun, Bool.false_eq_true, if_false]

theorem smsDispatch_shipname (r : Bool) (tel val : List Byte) (s : Device)
    (h : strcmp (memFrom s.config OWNER_OFF) tel = 0) (hrun : s.halted = false) :
    smsDispatch r tel (ascii "shipname") val s
      = ({ s with config := strncpy s.config SHIPNAME_OFF val SHIPNAME_LEN } : Device).save := by
  unfold smsDispatch
  rw [if_neg (by simpa using h)]
  have h1 : strcmp (ascii "shipname") (ascii "resetgsm") ≠ 0 := by decide
  have h2 : strcmp (ascii "shipname") (ascii "reset") ≠ 0 := by decide
  have h3 : strcmp (ascii "shipname") (ascii "mmsi") ≠ 0 := by decide
  have h4 : strcmp (ascii "shipname") (ascii "callsign") ≠ 0 := by decide
  have h5 : strcmp (ascii "shipname") (ascii "shipname") = 0 := by decide
  simp only [if_neg h1, if_neg h2, if_neg h3, if_neg h4, if_pos h5, hrun, Bool.false_eq_true,
    if_false]

/-- Saving a Config that equals the stored record except for one field set by
`strncpy`: the record gets that field, and nothing else outside the checksum moves. -/
theorem field_save_frame (c e : Mem) (hsame : ∀ i, i < CHECKSUM_OFF → c i = e i) (off n : Nat)
    (hfit : off + n ≤ CHECKSUM_OFF) (val : List Byte) :
    bytesAt (saveConfig (strncpy c off val n) e).eeprom off n = truncTo n val ∧
    (∀ i, i < CHECKSUM_OFF → ¬ (off ≤ i ∧ i < off + n) →
      (saveConfig (strncpy c off val n) e).eeprom i = e i) ∧
    (∀ i, CONFIG_SIZE ≤ i → (saveConfig (strncpy c off val n) e).eeprom i = e i) ∧
    validRecord (saveConfig (strncpy c off val n) e).eeprom := by
  have hlow : ∀ i, i < CHECKSUM_OFF →
      (saveConfig (strncpy c off val n) e).eeprom i = strncpy c off val n i := by
    intro i hi
    exact (sameFields_iff _ _).mp (sameFields_saveConfig_eeprom _ _) i hi
  refine ⟨?_, ?_, ?_, validRecord_saveConfig _ _⟩
  · rw [← bytesAt_strncpy c off val n]
    apply bytesAt_congr
    intro k hk
    exact hlow _ (by omega)
  · intro i hi hout
    rw [hlow i hi]
    simp only [strncpy]
    rw [if_neg (by omega)]
    exact hsame i hi
  · intro i hi
    rw [saveConfig_eeprom, if_neg (by omega)]

theorem smsReceived_setField (r : Bool) (tel cmd val : List Byte) (s : Device) (off n : Nat)
    (hv : validRecord s.eeprom) (hne : s.eeprom OWNER_OFF ≠ 0) (hfit : off + n ≤ CHECKSUM_OFF)
    (hcmd : strcmp cmd (ascii "resetall") ≠ 0)
    (hdisp : smsDispatch r tel cmd val (smsPrologue tel s)
      = ({ smsPrologue tel s with
          config := strncpy (smsPrologue tel s).config off val n } : Device).save) :
    bytesAt (smsReceived r tel cmd val s).eeprom off n = truncTo n val ∧
    (∀ i, i < CHECKSUM_OFF → ¬ (off ≤ i ∧ i < off + n) →
      (smsReceived r tel cmd val s).eeprom i = s.eeprom i) ∧
    (∀ i, CONFIG_SIZE ≤ i → (smsReceived r tel cmd val s).eeprom i = s.eeprom i) ∧
    validRecord (smsReceived r tel cmd val s).eeprom := by
  have heq : smsReceived r tel cmd val s = smsDispatch r tel cmd val (smsPrologue tel s) := by
    simp only [smsReceived, if_neg hcmd]
  rw [heq, hdisp]
  simp only [save_eeprom]
  rw [smsPrologue_eeprom]
  apply field_save_frame _ _ _ _ _ hfit
  intro i hi
  exact smsPrologue_config_same tel s hv (Or.inl hne) i
    (by simp only [CONFIG_SIZE, CHECKSUM_OFF] at *; omega)

/-- C17: frame of a field-setting command.  On a running device with a valid
persisted record whose owner is not empty and is the sender, each of the
commands `mmsi`, `callsign` and `shipname` writes the value cut to the
capacity of its field (NUL-padded when shorter, so nothing of the old value is
left) into that field of the persisted record, leaves the owner and the other
two fields byte for byte as they were, leaves the EEPROM beyond the record
alone and stores a matching checksum: only the named field and the checksum
change. -/
theorem smsReceived_field_frame (r : Bool) (tel val : List Byte) (s : Device)
    (hrun : s.halted = false) (hv : validRecord s.eeprom) (hne : s.eeprom OWNER_OFF ≠ 0)
    (hs : storedOwner s.eeprom = cstr tel) :
    (mmsiOf (smsReceived r tel (ascii "mmsi") val s).eeprom = truncTo MMSI_LEN val ∧
      ownerOf (smsReceived r tel (ascii "mmsi") val s).eeprom = ownerOf s.eeprom ∧
      shipnameOf (smsReceived r tel (ascii "mmsi") val s).eeprom = shipnameOf s.eeprom ∧
      callsignOf (smsReceived r tel (ascii "mmsi") val s).eeprom = callsignOf s.eeprom ∧
      (∀ i, CONFIG_SIZE ≤ i → (smsReceived r tel (ascii "mmsi") val s).eeprom i = s.eeprom i) ∧
      validRecord (smsReceived r tel (ascii "mmsi") val s).eeprom) ∧
    (callsignOf (smsReceived r tel (ascii "callsign") val s).eeprom = truncTo CALLSIGN_LEN val ∧
      ownerOf (smsReceived r tel (ascii "callsign") val s).eeprom = ownerOf s.eeprom ∧
      mmsiOf (smsReceived r tel (ascii "callsign") val s).eeprom = mmsiOf s.eeprom ∧
      shipnameOf (smsReceived r tel (ascii "callsign") val s).eeprom = shipnameOf s.eeprom ∧
      (∀ i, CONFIG_SIZE ≤ i →
        (smsReceived r tel (ascii "callsign") val s).eeprom i = s.eeprom i) ∧
      validRecord (smsReceived r tel (ascii "callsign") val s).eeprom) ∧
    (shipnameOf (smsReceived r tel (ascii "shipname") val s).eeprom = truncTo SHIPNAME_LEN val ∧
      ownerOf (smsReceived r tel (ascii "shipname") val s).eeprom = ownerOf s.eeprom ∧
      mmsiOf (smsReceived r tel (ascii "shipname") val s).eeprom = mmsiOf s.eeprom ∧
      callsignOf (smsReceived r tel (ascii "shipname") val s).eeprom = callsignOf s.eeprom ∧
      (∀ i, CONFIG_SIZE ≤ i →
        (smsReceived r tel (ascii "shipname") val s).eeprom i = s.eeprom i) ∧
      validRecord (smsReceived r tel (ascii "shipname") val s).eeprom) := by
  have hown := smsPrologue_owner_check tel s hv hne hs
  have hph : (smsPrologue tel s).halted = false := by rw [smsPrologue_halted]; exact hrun
  obtain ⟨a1, a2, a3, a4⟩ := smsReceived_setField r tel (ascii "mmsi") val s MMSI_OFF MMSI_LEN
    hv hne (by decide) (by decide) (smsDispatch_mmsi r tel val _ hown hph)
  obtain ⟨b1, b2, b3, b4⟩ := smsReceived_setField r tel (ascii "callsign") val s CALLSIGN_OFF
    CALLSIGN_LEN hv hne (by decide) (by decide) (smsDispatch_callsign r tel val _ hown hph)
  obtain ⟨c1, c2, c3, c4⟩ := smsReceived_setField r tel (ascii "shipname") val s SHIPNAME_OFF
    SHIPNAME_LEN hv hne (by decide) (by decide) (smsDispatch_shipname r tel val _ hown hph)
  simp only [OWNER_OFF, OWNER_LEN, MMSI_OFF, MMSI_LEN, SHIPNAME_OFF, SHIPNAME_LEN, CALLSIGN_OFF,
    CALLSIGN_LEN, CHECKSUM_OFF, ownerOf, mmsiOf, shipnameOf, callsignOf] at *
  refine ⟨⟨a1, ?_, ?_, ?_, a3, a4⟩, ⟨b1, ?_, ?_, ?_, b3, b4⟩, ⟨c1, ?_, ?_, ?_, c3, c4⟩⟩
  · exact bytesAt_congr _ _ _ _ (fun k hk => a2 _ (by omega) (by omega))
  · exact bytesAt_congr _ _ _ _ (fun k hk => a2 _ (by omega) (by omega))
  · exact bytesAt_congr _ _ _ _ (fun k hk => a2 _ (by omega) (by omega))
  · exact bytesAt_congr _ _ _ _ (fun k hk => b2 _ (by omega) (by omega))
  · exact bytesAt_congr _ _ _ _ (fun k hk => b2 _ (by omega) (by omega))
  · exact bytesAt_congr _ _ _ _ (fun k hk => b2 _ (by omega) (by omega))
  · exact bytesAt_congr _ _ _ _ (fun k hk => c2 _ (by omega) (by omega))
  · exact bytesAt_congr _ _ _ _ (fun k hk => c2 _ (by omega) (by omega))
  · exact bytesAt_congr _ _ _ _ (fun k hk => c2 _ (by omega) (by omega))

/-- Witness for C17: the owner "+47A" of `recordA` replaces the mmsi
"257123456" by the shorter "99"; nothing of the old value survives. -/
theorem smsReceived_field_frame_witness :
    ((bootDevice recordA imeiA).halted = false ∧ validRecord recordA ∧ recordA OWNER_OFF ≠ 0 ∧
      storedOwner recordA = cstr (ascii "+47A")) ∧
    mmsiOf (smsReceived true (ascii "+47A") (ascii "mmsi") (ascii "99")
      (bootDevice recordA imeiA)).eeprom = truncTo MMSI_LEN (ascii "99") ∧
    truncTo MMSI_LEN (ascii "99") = ascii "99" ++ List.replicate 14 0 ∧
    ownerOf (smsReceived true (ascii "+47A") (ascii "mmsi") (ascii "99")
      (bootDevice recordA imeiA)).eeprom = ownerOf recordA :=
  ⟨⟨by decide, by with_unfolding_all decide, by with_unfolding_all decide,
      by with_unfolding_all decide⟩,
    (smsReceived_field_frame true (ascii "+47A") (ascii "99") (bootDevice recordA imeiA)
      (by decide) (by with_unfolding_all decide) (by with_unfolding_all decide)
      (by with_unfolding_all decide)).1.1,
    by decide,
    (smsReceived_field_frame true (ascii "+47A") (ascii "99") (bootDevice recordA imeiA)
      (by decide) (by with_unfolding_all decide) (by with_unfolding_all decide)
      (by with_unfolding_all decide)).1.2.1⟩

/-! ## C18: byte transpositions are not detected -/

theorem sumTo_swapBytes (m : Mem) (i j n : Nat) (hi : i < n) (hj : j < n) :
    sumTo (swapBytes m i j) n = sumTo m n := by
  unfold swapBytes
  have h1 := sumTo_update m i (m j) n hi
  have h2 := sumTo_update (Function.update m i (m j)) j (m i) n hj
  have h3 : Function.update m i (m j) j = m j := by
    by_cases h : j = i
    · subst h; simp
    · rw [Function.update_noteq h]
  rw [h3] at h2
  omega

theorem swapBytes_high (m : Mem) (i j k : Nat) (hi : i < CHECKSUM_OFF) (hj : j < CHECKSUM_OFF)
    (hk : CHECKSUM_OFF ≤ k) : swapBytes m i j k = m k := by
  unfold swapBytes
  rw [Function.update_noteq (by omega), Function.update_noteq (by omega)]

theorem validRecord_swapBytes (e : Mem) (hv : validRecord e) (i j : Nat)
    (hi : i < CHECKSUM_OFF) (hj : j < CHECKSUM_OFF) : validRecord (swapBytes e i j) := by
  unfold validRecord at *
  have h1 : getChecksum (swapBytes e i j) = getChecksum e := by
    apply getChecksum_congr
    intro k hk _
    exact swapBytes_high e i j k hi hj hk
  rw [h1, hv]
  exact (sumTo_swapBytes e i j CHECKSUM_OFF hi hj).symm

/-- C18: the additive checksum does not detect byte transpositions.  In a
record written by `saveConfig()`, exchanging the bytes at any two positions of
the checksummed data region gives a record that `loadConfig()` accepts: the
checksum test passes and the exchanged bytes are returned as the fields.  So
there are two different records with the same stored checksum that
`loadConfig()` both accepts. -/
theorem loadConfig_accepts_transposition (c e c0 : Mem) (i j : Nat)
    (hi : i < CHECKSUM_OFF) (hj : j < CHECKSUM_OFF) :
    loadMismatch (swapBytes (saveConfig c e).eeprom i j) c0 = false ∧
    ownerOf (loadConfig (swapBytes (saveConfig c e).eeprom i j) c0)
      = ownerOf (swapBytes (saveConfig c e).eeprom i j) ∧
    mmsiOf (loadConfig (swapBytes (saveConfig c e).eeprom i j) c0)
      = mmsiOf (swapBytes (saveConfig c e).eeprom i j) ∧
    shipnameOf (loadConfig (swapBytes (saveConfig c e).eeprom i j) c0)
      = shipnameOf (swapBytes (saveConfig c e).eeprom i j) ∧
    callsignOf (loadConfig (swapBytes (saveConfig c e).eeprom i j) c0)
      = callsignOf (swapBytes (saveConfig c e).eeprom i j) ∧
    getChecksum (swapBytes (saveConfig c e).eeprom i j) = getChecksum (saveConfig c e).eeprom ∧
    ∃ a b : Mem, recordOf a ≠ recordOf b ∧ getChecksum a = getChecksum b ∧
      loadMismatch a c0 = false ∧ loadMismatch b c0 = false := by
  have hv := validRecord_swapBytes _ (validRecord_saveConfig c e) i j hi hj
  have hl := load_of_valid_same (swapBytes (saveConfig c e).eeprom i j)
    (swapBytes (saveConfig c e).eeprom i j) c0 hv (fun _ _ => rfl)
  have hcs : ∀ m : Mem, getChecksum (swapBytes m 0 1) = getChecksum m := by
    intro m
    apply getChecksum_congr
    intro k hk _
    exact swapBytes_high m 0 1 k (by decide) (by decide) hk
  refine ⟨hl.1, hl.2.1, hl.2.2.1, hl.2.2.2.1, hl.2.2.2.2, ?_, recordA, swapBytes recordA 0 1, ?_,
    (hcs recordA).symm, ?_, ?_⟩
  · apply getChecksum_congr
    intro k hk _
    exact swapBytes_high _ i j k hi hj hk
  · with_unfolding_all decide
  · exact (loadMismatch_eq_false_iff _ _).mpr (validRecord_saveConfig _ _)
  · exact (loadMismatch_eq_false_iff _ _).mpr
      (validRecord_swapBytes _ (validRecord_saveConfig _ _) 0 1 (by decide) (by decide))

/-- Witness for C18: in `recordA` the first two bytes of the owner, "+" and
"4", are exchanged; the load returns the owner "4+7A". -/
theorem loadConfig_accepts_transposition_witness :
    (0 < CHECKSUM_OFF ∧ 1 < CHECKSUM_OFF) ∧
    loadMismatch (swapBytes recordA 0 1) (fun _ => 0) = false ∧
    ownerOf (loadConfig (swapBytes recordA 0 1) (fun _ => 0)) = ownerOf (swapBytes recordA 0 1) ∧
    ownerOf (swapBytes recordA 0 1) = ascii "4+7A" ++ List.replicate 12 0 :=
  ⟨⟨by decide, by decide⟩,
    (loadConfig_accepts_transposition _ blankStorage (fun _ => 0) 0 1 (by decide) (by decide)).1,
    (loadConfig_accepts_transposition _ blankStorage (fun _ => 0) 0 1 (by decide) (by decide)).2.1,
    by with_unfolding_all decide⟩

/-! ## C19: the dispatcher keeps the store valid -/

theorem valid_ite (p : Prop) [Decidable p] (a b : Device) (ha : validRecord a.eeprom)
    (hb : validRecord b.eeprom) : validRecord (if p then a else b).eeprom := by
  split
  · exact ha
  · exact hb

theorem smsDispatch_valid (r : Bool) (tel cmd val : List Byte) (s : Device)
    (hv : validRecord s.eeprom) : validRecord (smsDispatch r tel cmd val s).eeprom := by
  unfold smsDispatch
  apply valid_ite _ _ _ hv
  simp only
  apply valid_ite
  · apply valid_ite _ _ _ (show validRecord (GPRSLib.resetGsm s).eeprom from hv)
    apply valid_ite _ _ _ (show validRecord (GPRSLib.resetAll r s).eeprom from hv)
    apply valid_ite
    · exact hv
    apply valid_ite
    · exact hv
    apply valid_ite
    · exact hv
    · exact hv
  · rw [save_eeprom]
    exact validRecord_saveConfig _ _

/-- C19: `smsReceived` preserves the validity of the store.  When the
persisted record is valid before the call, it is valid after it, for every
sender, command and value; so a following `loadConfig()` passes the checksum
test and does not fall back to the default Config. -/
theorem smsReceived_preserves_valid (r : Bool) (tel cmd val : List Byte) (s : Device) (c0 : Mem)
    (hv : validRecord s.eeprom) :
    validRecord (smsReceived r tel cmd val s).eeprom ∧
    loadMismatch (smsReceived r tel cmd val s).eeprom c0 = false := by
  have hmain : validRecord (smsReceived r tel cmd val s).eeprom := by
    have hp : validRecord (smsPrologue tel s).eeprom := by
      rw [smsPrologue_eeprom]; exact hv
    simp only [smsReceived]
    split
    · split
      · exact hp
      · apply smsDispatch_valid
        simp only [Device.save]
        exact validRecord_saveConfig _ _
    · exact smsDispatch_valid _ _ _ _ _ hp
  exact ⟨hmain, (loadMismatch_eq_false_iff _ _).mpr hmain⟩

/-- Witness for C19: the owner of `recordA` sets a callsign that fills the field. -/
theorem smsReceived_preserves_valid_witness :
    validRecord recordA ∧
    validRecord (smsReceived true (ascii "+47A") (ascii "callsign") (ascii "LA12345678")
      (bootDevice recordA imeiA)).eeprom :=
  ⟨by with_unfolding_all decide,
    (smsReceived_preserves_valid true (ascii "+47A") (ascii "callsign") (ascii "LA12345678")
      (bootDevice recordA imeiA) (fun _ => 0) (by with_unfolding_all decide)).1⟩

/-! ## C20: eligibility is a plain comparison -/

theorem tasksRun_self (s : Device) : tasksRun s s = [] := by
  simp [tasksRun, newEvents]

theorem firstDue_due (env : Env) (s : Device) :
    (firstDue env s = some Task.gps → due (millisAt env 0) s.gpsLastMillis gpsInterval = true) ∧
    (firstDue env s = some Task.sensor →
      due (millisAt env 1) s.sensLastMillis sensInterval = true) ∧
    (firstDue env s = some Task.sms → due (millisAt env 2) s.smsLastMillis smsInterval = true) ∧
    (firstDue env s = some Task.upload → due (millisAt env 3) s.lastMillis interval = true) := by
  unfold firstDue
  split_ifs <;> simp_all

theorem not_due_of_le (now last ivl : Nat) (h : now ≤ last + ivl) : due now last ivl = false := by
  simp only [due, decide_eq_false_iff_not]
  omega

/-- In any iteration a task runs only if it is the first one due, and the
timestamp of a task that is not the first one due stays. -/
theorem loop_only_first_due (env : Env) (s : Device) (hts : clockValues s) :
    (∀ t, t ∈ tasksRun s (loop env s) → firstDue env s = some t) ∧
    (firstDue env s ≠ some Task.gps → (loop env s).gpsLastMillis = s.gpsLastMillis) ∧
    (firstDue env s ≠ some Task.sensor → (loop env s).sensLastMillis = s.sensLastMillis) ∧
    (firstDue env s ≠ some Task.sms → (loop env s).smsLastMillis = s.smsLastMillis) ∧
    (firstDue env s ≠ some Task.upload → (loop env s).lastMillis = s.lastMillis) := by
  by_cases hh : s.halted = true
  · have hl : loop env s = s := by simp [loop, hh]
    rw [hl, tasksRun_self]
    exact ⟨fun t ht => absurd ht (by simp), fun _ => rfl, fun _ => rfl, fun _ => rfl,
      fun _ => rfl⟩
  · have hrun : s.halted = false := by simpa using hh
    by_cases hstop : s.resetAll = true ∧ env.resetAllReturns = false
    · have hl : loop env s = GPRSLib.resetAll false s := by
        simp [loop, hrun, hstop.1, hstop.2, GPRSLib.resetAll, Device.log]
      have htrace : (GPRSLib.resetAll false s).trace = s.trace ++ [Event.resetAll] := rfl
      rw [hl]
      refine ⟨?_, fun _ => rfl, fun _ => rfl, fun _ => rfl, fun _ => rfl⟩
      intro t ht
      rw [tasksRun, newEvents_of_append s _ _ htrace] at ht
      have hnil : (List.filterMap Event.task [Event.resetAll]).dedup = [] := by decide
      rw [hnil] at ht
      exact absurd ht (by simp)
    · have hflag : s.resetAll = false ∨ env.resetAllReturns = true := by
        cases h1 : s.resetAll
        · exact Or.inl rfl
        · cases h2 : env.resetAllReturns
          · exact absurd ⟨h1, h2⟩ hstop
          · exact Or.inr rfl
      obtain ⟨pre, hpre, heq⟩ := loop_eq_taskChain env s hrun hflag
      have hspec := taskChain_spec env { s with trace := s.trace ++ pre } hts
      have hfd : firstDue env { s with trace := s.trace ++ pre } = firstDue env s := rfl
      rw [hfd, ← heq] at hspec
      obtain ⟨⟨evs, h1, h2⟩, h3, h4, h5, h6, _⟩ := hspec
      refine ⟨?_, h3, h4, h5, h6⟩
      intro t ht
      have htr : (loop env s).trace = s.trace ++ (pre ++ evs) := by
        rw [h1]; simp
      have hrunT : tasksRun s (loop env s) = (firstDue env s).toList := by
        rw [tasksRun, newEvents_of_append s _ _ htr, ← h2]
        rcases hpre with h | h <;> subst h <;> simp [Event.task]
      rw [hrunT] at ht
      simpa [Option.mem_toList] using ht

/-- C20: eligibility is the comparison `now > last + interval`, taken in 64-bit
arithmetic on the 32-bit value of `millis()`, with no modular subtraction.
With timestamps that are 32-bit clock values the sum never wraps, so the test
of the code is the comparison of plain numbers; and whenever the clock value
read for a task is at most its timestamp plus its interval, in particular when
the clock has wrapped and reads less than the timestamp, that task does not
run in the iteration and its timestamp stays, however much real time has
passed. -/
theorem task_not_eligible_unless_past (env : Env) (s : Device) (hts : clockValues s) :
    ((s.gpsLastMillis + gpsInterval) % U64_MOD = s.gpsLastMillis + gpsInterval ∧
      (s.sensLastMillis + sensInterval) % U64_MOD = s.sensLastMillis + sensInterval ∧
      (s.smsLastMillis + smsInterval) % U64_MOD = s.smsLastMillis + smsInterval ∧
      (s.lastMillis + interval) % U64_MOD = s.lastMillis + interval) ∧
    (millisAt env 0 ≤ s.gpsLastMillis + gpsInterval →
      Task.gps ∉ tasksRun s (loop env s) ∧ (loop env s).gpsLastMillis = s.gpsLastMillis) ∧
    (millisAt env 1 ≤ s.sensLastMillis + sensInterval →
      Task.sensor ∉ tasksRun s (loop env s) ∧
      (loop env s).sensLastMillis = s.sensLastMillis) ∧
    (millisAt env 2 ≤ s.smsLastMillis + smsInterval →
      Task.sms ∉ tasksRun s (loop env s) ∧ (loop env s).smsLastMillis = s.smsLastMillis) ∧
    (millisAt env 3 ≤ s.lastMillis + interval →
      Task.upload ∉ tasksRun s (loop env s) ∧ (loop env s).lastMillis = s.lastMillis) := by
  obtain ⟨a0, a1, a2, a3, a4⟩ := loop_only_first_due env s hts
  obtain ⟨d1, d2, d3, d4⟩ := firstDue_due env s
  have hmod : ∀ last ivl : Nat, last < 2 ^ 32 → ivl ≤ 30000 →
      (last + ivl) % U64_MOD = last + ivl := by
    intro last ivl h1 h2
    apply Nat.mod_eq_of_lt
    simp only [U64_MOD]
    omega
  have hno : ∀ (t : Task) (now last ivl : Nat),
      (firstDue env s = some t → due now last ivl = true) → now ≤ last + ivl →
      firstDue env s ≠ some t := by
    intro t now last ivl hd hle hfd
    have := hd hfd
    rw [not_due_of_le now last ivl hle] at this
    exact absurd this (by decide)
  obtain ⟨t1, t2, t3, t4⟩ := hts
  refine ⟨⟨hmod _ _ t1 (by decide), hmod _ _ t2 (by decide), hmod _ _ t3 (by decide),
    hmod _ _ t4 (by decide)⟩, ?_, ?_, ?_, ?_⟩
  · intro hle
    have hn := hno _ _ _ _ d1 hle
    exact ⟨fun hm => hn (a0 _ hm), a1 hn⟩
  · intro hle
    have hn := hno _ _ _ _ d2 hle
    exact ⟨fun hm => hn (a0 _ hm), a2 hn⟩
  · intro hle
    have hn := hno _ _ _ _ d3 hle
    exact ⟨fun hm => hn (a0 _ hm), a3 hn⟩
  · intro hle
    have hn := hno _ _ _ _ d4 hle
    exact ⟨fun hm => hn (a0 _ hm), a4 hn⟩

/-- Witness for C20: the GPS task last ran at 4294967000; 796 ms later the
32-bit clock has wrapped and reads 500.  More than the GPS interval has passed,
but the GPS task does not run and its timestamp stays. -/
theorem task_not_eligible_unless_past_witness :
    (clockValues lateDevice ∧
      (quietEnv 4294967796 true).millis 0 - lateDevice.gpsLastMillis > gpsInterval ∧
      millisAt (quietEnv 4294967796 true) 0 = 500 ∧
      millisAt (quietEnv 4294967796 true) 0 ≤ lateDevice.gpsLastMillis + gpsInterval) ∧
    Task.gps ∉ tasksRun lateDevice (loop (quietEnv 4294967796 true) lateDevice) ∧
    (loop (quietEnv 4294967796 true) lateDevice).gpsLastMillis = lateDevice.gpsLastMillis :=
  ⟨⟨by decide, by decide, by decide, by decide⟩,
    (task_not_eligible_unless_past (quietEnv 4294967796 true) lateDevice (by decide)).2.1
      (by decide)⟩

end GSPReporter
